import Mathlib

/-!
Shallow embedding of the kn5 node writer (src/exporter/node_writer.py).

Numeric model: Blender/Python floats are modelled as rationals, faithfully
reproducing the source arithmetic (which is exact on the inputs the claims
use). Python dicts (insertion ordered) are modelled as association lists to
which new entries are appended at the end; dict membership tests use the
same key equality as the source class. External collaborators that are not
part of this repository slice (mathutils, bmesh, the Blender scene API, the
binary primitive writer) appear as abstract fields of an export context or
as already-evaluated data carried by the scene objects.
-/

/-- Three component vector of rationals (a mathutils Vector / float triple). -/
abbrev V3 : Type := ℚ × ℚ × ℚ
/-- Two component vector (a UV pair). -/
abbrev V2 : Type := ℚ × ℚ
/-- A 4x4 transform matrix, as rows. Matrix arithmetic (inversion, products)
is performed by the external mathutils library and is kept abstract in the
export context; only the identity constructor Matrix() is concrete. -/
abbrev Mat4 : Type := List (List ℚ)

/-- mathutils Matrix() with no arguments: the 4x4 identity. -/
def matrixIdentity : Mat4 := [[1,0,0,0],[0,1,0,0],[0,0,1,0],[0,0,0,1]]

/-- UvVertex (node_writer.py, class UvVertex): position, normal, UV and
tangent of one deduplicated loop vertex. -/
structure UvVertex where
  co : V3
  normal : V3
  uv : V2
  tangent : V3
  deriving DecidableEq, Repr

instance : Inhabited UvVertex := ⟨⟨(0,0,0), (0,0,0), (0,0), (0,0,0)⟩⟩

/-- UvVertex.__eq__: structural equality over position, normal and UV only;
the tangent is not compared. -/
def uvVertexEq (v other : UvVertex) : Bool :=
  v.co == other.co && v.normal == other.normal && v.uv == other.uv

/-- UvVertex.__hash__: the tuple whose hash Python takes, listing the three
position components, the three normal components and the two UV components.
The tangent does not participate. -/
def uvVertexHashKey (v : UvVertex) : ℚ × ℚ × ℚ × ℚ × ℚ × ℚ × ℚ × ℚ :=
  (v.co.1, v.co.2.1, v.co.2.2, v.normal.1, v.normal.2.1, v.normal.2.2, v.uv.1, v.uv.2)

/-- Mesh (node_writer.py, class Mesh): one material group. The material id
is an optional integer: None models the unresolved-material sentinel that
_write_mesh later replaces by 0 with a warning. -/
structure Mesh where
  material_id : Option Nat
  vertices : List UvVertex
  indices : List Nat
  deriving DecidableEq, Repr

/-- Lookup in the `vertices` dict of _split_object_by_materials: the dict is
keyed by UvVertex with the source equality (position, normal, UV). -/
def lookupUvVertex (vertices : List (UvVertex × Nat)) (v : UvVertex) : Option Nat :=
  (vertices.find? (fun p => uvVertexEq p.1 v)).map (fun p => p.2)

/-- The dict insertion step of _split_object_by_materials: if the vertex is
not present it is appended with value len(vertices); the returned index is
vertices[vertex]. -/
def insertUvVertex (vertices : List (UvVertex × Nat)) (v : UvVertex) :
    List (UvVertex × Nat) × Nat :=
  match lookupUvVertex vertices v with
  | some i => (vertices, i)
  | none => (vertices ++ [(v, vertices.length)], vertices.length)

/-- Stable insertion into a list sorted ascending by the second component.
Used to model the Python sorted(..., key=lambda k: k[1]) calls. -/
def insertBySnd {α : Type} (p : α × Nat) : List (α × Nat) → List (α × Nat)
  | [] => [p]
  | q :: r => if p.2 ≤ q.2 then p :: q :: r else q :: insertBySnd p r

/-- sorted(d.items(), key=lambda k: k[1]): sort the association pairs of a
dict ascending by stored index (stable). -/
def sortBySnd {α : Type} : List (α × Nat) → List (α × Nat)
  | [] => []
  | p :: r => insertBySnd p (sortBySnd r)

/-- The fixed winding reorder of _split_object_by_materials: for the list of
deduplicated per-loop indices of one face it appends (face_indices[1],
face_indices[2], face_indices[0]), and for a four loop face additionally
(face_indices[2], face_indices[3], face_indices[0]). -/
def emitFace (face_indices : List Nat) : List Nat :=
  [face_indices.getD 1 0, face_indices.getD 2 0, face_indices.getD 0 0] ++
    (if face_indices.length = 4 then
      [face_indices.getD 2 0, face_indices.getD 3 0, face_indices.getD 0 0]
    else [])

/-- The 16-bit vertex ceiling (local variable limit = 2**16 of
_split_meshes_for_vertex_limit). -/
def vertexLimit : Nat := 2 ^ 16

/-- Integer key lookup in the vertex_index_mapping dict of
_split_meshes_for_vertex_limit. -/
def lookupNat (mapping : List (Nat × Nat)) (k : Nat) : Option Nat :=
  (mapping.find? (fun p => p.1 == k)).map (fun p => p.2)

/-- One face index of _split_meshes_for_vertex_limit: insert into
vertex_index_mapping on first occurrence (with value len(mapping)) and
return the compact local index. -/
def insertIndex (mapping : List (Nat × Nat)) (fi : Nat) : List (Nat × Nat) × Nat :=
  match lookupNat mapping fi with
  | some j => (mapping, j)
  | none => (mapping ++ [(fi, mapping.length)], mapping.length)

/-- The inner per-face loop of _split_meshes_for_vertex_limit: remap every
index of one face through vertex_index_mapping, returning the extended
mapping and the local indices appended to new_indices. -/
def mapFace (mapping : List (Nat × Nat)) : List Nat → List (Nat × Nat) × List Nat
  | [] => (mapping, [])
  | fi :: rest =>
    let r1 := insertIndex mapping fi
    let r2 := mapFace r1.1 rest
    (r2.1, r1.2 :: r2.2)

/-- mesh.indices consumed three at a time (mesh.indices[i:i+3] for i in
range(start, len, 3)); a trailing slice may be shorter when the input is not
triangle aligned. -/
def chunk3 : List Nat → List (List Nat)
  | [] => []
  | [a] => [[a]]
  | [a, b] => [[a, b]]
  | a :: b :: c :: rest => [a, b, c] :: chunk3 rest

/-- verts = [mesh.vertices[v] for v, index in sorted(mapping.items(),
key=lambda k: k[1])]: the vertex buffer of one sub-group in local index
order. Out of range source indices (a Python IndexError) are mapped to the
default vertex. -/
def closeGroup (vertices : List UvVertex) (matId : Option Nat)
    (mapping : List (Nat × Nat)) (newIndices : List Nat) : Mesh :=
  Mesh.mk matId ((sortBySnd mapping).map (fun p => vertices.getD p.1 default)) newIndices

/-- The while/for loop pair of _split_meshes_for_vertex_limit, one face at a
time: after each face, if len(vertex_index_mapping) >= limit-3 the current
sub-group is closed; a fresh mapping and index list are then started for the
remaining faces (the source expresses this as break plus re-entering the
while loop). The final partial sub-group is closed when the faces run out. -/
def splitOneGo (vertices : List UvVertex) (matId : Option Nat) :
    List (List Nat) → List (Nat × Nat) → List Nat → List Mesh
  | [], mapping, acc => [closeGroup vertices matId mapping acc]
  | f :: fs, mapping, acc =>
    let r := mapFace mapping f
    let acc1 := acc ++ r.2
    if vertexLimit - 3 ≤ r.1.length then
      match fs with
      | [] => [closeGroup vertices matId r.1 acc1]
      | _ => closeGroup vertices matId r.1 acc1 :: splitOneGo vertices matId fs [] []
    else splitOneGo vertices matId fs r.1 acc1

/-- Split one oversized material group: the while loop of
_split_meshes_for_vertex_limit over its triangle aligned index chunks
(no iteration happens when the index list is empty). -/
def splitOne (vertices : List UvVertex) (matId : Option Nat)
    (faces : List (List Nat)) : List Mesh :=
  match faces with
  | [] => []
  | _ => splitOneGo vertices matId faces [] []

/-- The per-mesh body of _split_meshes_for_vertex_limit: a group over the
vertex ceiling is split, any other group is passed through unchanged. -/
def split_groups_of (m : Mesh) : List Mesh :=
  if vertexLimit < m.vertices.length then
    splitOne m.vertices m.material_id (chunk3 m.indices)
  else [m]

/-- _split_meshes_for_vertex_limit: new_meshes accumulated over
divided_meshes in order. -/
def split_meshes_for_vertex_limit (divided_meshes : List Mesh) : List Mesh :=
  divided_meshes.flatMap split_groups_of

/-- The accumulator update if co[axis] > max_axis: max_axis = co[axis]. -/
def updMax (acc x : ℚ) : ℚ := if x > acc then x else acc

/-- The accumulator update if co[axis] < min_axis: min_axis = co[axis]. -/
def updMin (acc x : ℚ) : ℚ := if x < acc then x else acc

/-- One vertex step of the _write_bounding_sphere loop over the six
accumulators (max_x, max_y, max_z, min_x, min_y, min_z). -/
def sphereStep (st : ℚ × ℚ × ℚ × ℚ × ℚ × ℚ) (vertex : UvVertex) : ℚ × ℚ × ℚ × ℚ × ℚ × ℚ :=
  let co := vertex.co
  (updMax st.1 co.1, updMax st.2.1 co.2.1, updMax st.2.2.1 co.2.2,
   updMin st.2.2.2.1 co.1, updMin st.2.2.2.2.1 co.2.1, updMin st.2.2.2.2.2 co.2.2)

/-- _write_bounding_sphere: sentinel initialised axis aligned min/max fold
followed by the center/radius computation; returns the (center, radius)
pair written to the stream. -/
def write_bounding_sphere (vertices : List UvVertex) : V3 × ℚ :=
  let st := vertices.foldl sphereStep
    (-999999999, -999999999, -999999999, 999999999, 999999999, 999999999)
  let max_x := st.1
  let max_y := st.2.1
  let max_z := st.2.2.1
  let min_x := st.2.2.2.1
  let min_y := st.2.2.2.2.1
  let min_z := st.2.2.2.2.2
  let sphere_center : V3 :=
    (min_x + (max_x - min_x) / 2, min_y + (max_y - min_y) / 2, min_z + (max_z - min_z) / 2)
  let sphere_radius :=
    max ((max_x - min_x) / 2) (max ((max_y - min_y) / 2) ((max_z - min_z) / 2)) * 2
  (sphere_center, sphere_radius)

/-- NodeProperties (node_writer.py): per-mesh render attributes with their
constructor defaults lodIn=0, lodOut=1000, layer=0, castShadows=True,
visible=True, transparent=False, renderable=True. -/
structure NodeProperties where
  lodIn : ℚ
  lodOut : ℚ
  layer : Nat
  castShadows : Bool
  visible : Bool
  transparent : Bool
  renderable : Bool
  deriving DecidableEq, Repr

/-- The default-initialised NodeProperties before any override. -/
def defaultNodeProperties : NodeProperties :=
  { lodIn := 0, lodOut := 1000, layer := 0, castShadows := true, visible := true,
    transparent := false, renderable := true }

/-- A partial attribute override: the NODE_SETTINGS fields an entry supplies
(a NodeSettings settings dict, or the per-field hasattr reads of an
ac_properties group). -/
structure NodeSettingOverride where
  lodIn : Option ℚ := none
  lodOut : Option ℚ := none
  layer : Option Nat := none
  castShadows : Option Bool := none
  visible : Option Bool := none
  transparent : Option Bool := none
  renderable : Option Bool := none
  deriving DecidableEq, Repr

/-- NodeSettings.apply_settings_to_node: setattr of every setting the entry
carries. Note that the compiled node_regexp of NodeSettings is never
consulted in node_writer.py: the settings are applied to every mesh node. -/
def apply_settings_to_node (s : NodeSettingOverride) (p : NodeProperties) : NodeProperties :=
  { lodIn := s.lodIn.getD p.lodIn, lodOut := s.lodOut.getD p.lodOut,
    layer := s.layer.getD p.layer, castShadows := s.castShadows.getD p.castShadows,
    visible := s.visible.getD p.visible, transparent := s.transparent.getD p.transparent,
    renderable := s.renderable.getD p.renderable }

/-- NodeProperties.__init__: defaults, then the object ac_properties fields
that exist override them. -/
def nodePropertiesOf (acProps : Option NodeSettingOverride) : NodeProperties :=
  match acProps with
  | none => defaultNodeProperties
  | some o => apply_settings_to_node o defaultNodeProperties

/-- One evaluated mesh loop (mesh_copy.loops[i]): source vertex index,
split normal and tangent. -/
structure Loop where
  vertex_index : Nat
  normal : V3
  tangent : V3
  deriving DecidableEq, Repr

instance : Inhabited Loop := ⟨⟨0, (0,0,0), (0,0,0)⟩⟩

/-- One evaluated loop triangle (mesh_copy.loop_triangles[i]): material slot
index and its loop indices (three of them after the bmesh triangulate
operator; the source still contains a four-loop branch). -/
structure LoopTriangle where
  material_index : Nat
  loops : List Nat
  deriving DecidableEq, Repr

/-- The texture_mapping of an active texture node: scale and translation
vectors (external Blender data; only the first two components are read). -/
structure TextureMapping where
  scale : V3
  translation : V3
  deriving DecidableEq, Repr

/-- The evaluated, bmesh-triangulated mesh of one object as the Blender API
hands it to _split_object_by_materials: vertex positions, loops, loop
triangles, the active UV layer (per-loop UVs) and the material slot names
(None for an empty slot). Depsgraph evaluation and triangulation are
external and out of scope, so the already-triangulated data is carried by
the object. -/
structure MeshData where
  vertices : List V3
  loops : List Loop
  loop_triangles : List LoopTriangle
  uv_layer : Option (List V2)
  materials : List (Option String)
  deriving DecidableEq, Repr

/-- obj.type values distinguished by the writer. -/
inductive ObjType where
  | MESH
  | CURVE
  | OTHER
  deriving DecidableEq, Repr

/-- The scalar data of one scene object: name, type, evaluated visibility
(visible_get on the active view layer), local and world transforms, object
dimensions, optional ac_properties overrides and the evaluated mesh data. -/
structure ObjData where
  name : String
  otype : ObjType
  visible : Bool
  matrix_local : Mat4
  matrix_world : Mat4
  dimensions : V3
  ac_properties : Option NodeSettingOverride
  mesh_data : MeshData
  deriving Repr

/-- A scene object with its ordered hierarchy children. -/
inductive BObj where
  | mk : ObjData → List BObj → BObj

/-- The scalar data of an object. -/
def BObj.data : BObj → ObjData
  | .mk d _ => d

/-- The ordered hierarchy children of an object. -/
def BObj.children : BObj → List BObj
  | .mk _ cs => cs

/-- obj.name. -/
def BObj.name (o : BObj) : String := o.data.name

/-- obj.visible_get(view_layer=view_layer). -/
def BObj.visible (o : BObj) : Bool := o.data.visible

/-- obj.name.startswith("__"): the reserved exclusion marker test. -/
def isExcludedName (name : String) : Bool := "__".data.isPrefixOf name.data

/-- The external collaborators of the node writer, plus repository code that
is outside the provided source slice. -/
structure ExportContext where
  /-- Modelled from the spec: ASSETTO_CORSA_OBJECTS (utils/constants.py is
  not under src/) is the list of well-known engine object names; since
  _init_assetto_corsa_objects anchors each entry as ^name$, a regex match is
  modelled as string equality against an entry. -/
  ac_object_names : List String
  /-- The NodeSettings entries built by _init_node_settings from the settings
  dict, in declaration order. -/
  node_settings : List NodeSettingOverride
  /-- Modelled from the spec: the material resolver (material_writer is not
  under src/) maps a material name to the integer id assigned in a prior
  export phase; an absent name yields no id, which _write_mesh writes as the
  fallback id 0 together with a collected warning. -/
  material_positions : String → Option Nat
  /-- External exporter_utils.convert_matrix (target coordinate convention). -/
  convert_matrix : Mat4 → Mat4
  /-- External exporter_utils.convert_vector3. -/
  convert_vector3 : V3 → V3
  /-- External mathutils Matrix.inverted(). -/
  matrix_inverted : Mat4 → Mat4
  /-- External mathutils matrix-vector product (matrix @ co). -/
  matrix_apply : Mat4 → V3 → V3
  /-- External exporter_utils.get_active_material_texture_slot, keyed by the
  material name; returns the texture_mapping of the active texture node. -/
  texture_slot : String → Option TextureMapping

/-- _is_ac_object: some compiled ^name$ pattern matches, i.e. the name
equals one of the well-known engine object names. -/
def is_ac_object (ctx : ExportContext) (name : String) : Bool :=
  ctx.ac_object_names.any (fun n => n == name)

/-- _calculate_uvs: planar projection fallback from object-dimension
normalised coordinates, adjusted by the active texture mapping when one
exists. Division is exact rational division (division by a zero dimension,
a Python ZeroDivisionError, is out of scope of the claims). -/
def calculate_uvs (ctx : ExportContext) (obj : ObjData) (md : MeshData)
    (material_id : Nat) (co : V3) : V2 :=
  let size := obj.dimensions
  let x := co.1 / size.1
  let y := co.2.1 / size.2.1
  match md.materials.getD material_id none with
  | some mname =>
    match ctx.texture_slot mname with
    | some tn =>
      (x * tn.scale.1 + tn.translation.1, y * tn.scale.2.1 + tn.translation.2.1)
    | none => (x, y)
  | none => (x, y)

/-- The per-loop body of _split_object_by_materials: build the UvVertex of
one loop index (world-transformed converted position, converted split
normal, UV from the active layer with flipped V or else the planar
fallback, and the loop tangent). -/
def loopVertex (ctx : ExportContext) (obj : ObjData) (md : MeshData)
    (material_index : Nat) (loop_index : Nat) : UvVertex :=
  let loop := md.loops.getD loop_index default
  let local_position := ctx.matrix_apply obj.matrix_world (md.vertices.getD loop.vertex_index default)
  let converted_position := ctx.convert_vector3 local_position
  let converted_normal := ctx.convert_vector3 loop.normal
  let uv : V2 :=
    match md.uv_layer with
    | some data =>
      let u := data.getD loop_index (0, 0)
      (u.1, -u.2)
    | none => calculate_uvs ctx obj md material_index local_position
  { co := converted_position, normal := converted_normal, uv := uv, tangent := loop.tangent }

/-- The per-triangle body of _split_object_by_materials: skip triangles of
other materials, deduplicate the loop vertices through the vertices dict
collecting face_indices in loop order, then append the winding-fixed index
triple (and the second triple of a four-loop face). -/
def process_triangle (ctx : ExportContext) (obj : ObjData) (md : MeshData)
    (material_index : Nat) (st : List (UvVertex × Nat) × List Nat)
    (triangle : LoopTriangle) : List (UvVertex × Nat) × List Nat :=
  if material_index ≠ triangle.material_index then st
  else
    let r := triangle.loops.foldl
      (fun (acc : List (UvVertex × Nat) × List Nat) loop_index =>
        let vertex := loopVertex ctx obj md material_index loop_index
        let ins := insertUvVertex acc.1 vertex
        (ins.1, acc.2 ++ [ins.2]))
      (st.1, [])
    (r.1, st.2 ++ emitFace r.2)

/-- used_materials = set(triangle.material_index for triangle in
mesh_triangles). CPython set iteration order is unspecified; it is modelled
as first-occurrence order, which no claim depends on. -/
def usedMaterials (md : MeshData) : List Nat :=
  md.loop_triangles.foldl
    (fun acc t => if t.material_index ∈ acc then acc else acc ++ [t.material_index]) []

/-- _split_object_by_materials: for every used material slot, validate the
slot, build the deduplicated vertex buffer and winding-fixed index list,
resolve the material id, and collect one Mesh group. Out-of-range slot
indices (a Python IndexError) are folded into the empty-slot error. -/
def split_object_by_materials (ctx : ExportContext) (obj : ObjData) :
    Except String (List Mesh) :=
  let md := obj.mesh_data
  if md.materials.isEmpty then
    .error ("Object \x27" ++ obj.name ++ "\x27 has no material assigned")
  else
    (usedMaterials md).foldlM
      (fun (meshes : List Mesh) material_index =>
        match md.materials.getD material_index none with
        | none =>
          .error ("Material slot " ++ toString material_index ++ " for object \x27" ++
            obj.name ++ "\x27 has no material assigned")
        | some material_name =>
          if isExcludedName material_name then
            .error ("Material \x27" ++ material_name ++ "\x27 is ignored but is used by object \x27" ++
              obj.name ++ "\x27")
          else
            let r := md.loop_triangles.foldl (process_triangle ctx obj md material_index) ([], [])
            let vertices := (sortBySnd r.1).map (fun p => p.1)
            let material_id := ctx.material_positions material_name
            .ok (meshes ++ [Mesh.mk material_id vertices r.2]))
      []

/-- The data of one written Mesh record, in stream field order: name, the
three render booleans, vertex buffer, index list, the written material
reference, layer, LOD distances, bounding sphere and renderable flag. -/
structure MeshRecord where
  name : String
  castShadows : Bool
  visibleFlag : Bool
  transparent : Bool
  vertices : List UvVertex
  indices : List Nat
  materialId : Nat
  layer : Nat
  lodIn : ℚ
  lodOut : ℚ
  boundingSphere : V3 × ℚ
  renderable : Bool
  deriving Repr

/-- One framed record of the output stream, carrying the records positioned
as its children (the records emitted directly after it, which the declared
child count field frames). Rec.node is a generic "Node" class record with
name, written childCount field, active flag and transform; Rec.meshRec is a
"Mesh" class record with its written childCount field (the literal 0 of
_write_mesh). -/
inductive Rec where
  | node : String → Nat → Bool → Mat4 → List Rec → Rec
  | meshRec : MeshRecord → Nat → List Rec → Rec

/-- The childCount field written for a record. -/
def Rec.declaredChildCount : Rec → Nat
  | .node _ c _ _ _ => c
  | .meshRec _ c _ => c

/-- The records subsequently emitted as the direct children of a record. -/
def Rec.childRecords : Rec → List Rec
  | .node _ _ _ _ ks => ks
  | .meshRec _ _ ks => ks

/-- NODE_CLASS tag of a record (Node=1, Mesh=2). -/
def Rec.klass : Rec → Nat
  | .node _ _ _ _ _ => 1
  | .meshRec _ _ _ => 2

/-- A record occurring anywhere in an emitted record tree. -/
inductive OccursIn : Rec → Rec → Prop where
  | refl (r : Rec) : OccursIn r r
  | child {r c t : Rec} : c ∈ Rec.childRecords t → OccursIn r c → OccursIn r t

/-- _write_mesh: reject a group over the 16-bit ceiling, otherwise emit one
Mesh record with written child count 0; an unresolved (None) material id is
written as 0 with a collected warning. -/
def write_mesh (_ctx : ExportContext) (obj : ObjData) (mesh : Mesh)
    (node_properties : NodeProperties) : Except String (Rec × List String) :=
  if vertexLimit < mesh.vertices.length then
    .error ("Only " ++ toString vertexLimit ++ " vertices per mesh allowed. (\x27" ++
      obj.name ++ "\x27)")
  else
    let idWarn : Nat × List String :=
      match mesh.material_id with
      | none => (0, ["No material to mesh \x27" ++ obj.name ++ "\x27 assigned"])
      | some i => (i, [])
    .ok (Rec.meshRec
      { name := obj.name
        castShadows := node_properties.castShadows
        visibleFlag := node_properties.visible
        transparent := node_properties.transparent
        vertices := mesh.vertices
        indices := mesh.indices
        materialId := idWarn.1
        layer := node_properties.layer
        lodIn := node_properties.lodIn
        lodOut := node_properties.lodOut
        boundingSphere := write_bounding_sphere mesh.vertices
        renderable := node_properties.renderable } 0 [], idWarn.2)

/-- The mesh record loop of _write_mesh_node (for mesh in divided_meshes),
collecting records and warnings in emission order. -/
def write_meshes (ctx : ExportContext) (obj : ObjData) (node_properties : NodeProperties) :
    List Mesh → Except String (List Rec × List String)
  | [] => .ok ([], [])
  | m :: ms =>
    match write_mesh ctx obj m node_properties with
    | .error e => .error e
    | .ok r =>
      match write_meshes ctx obj node_properties ms with
      | .error e => .error e
      | .ok rest => .ok (r.1 :: rest.1, r.2 ++ rest.2)

/-- NodeProperties(obj) followed by apply_settings_to_node for every
NodeSettings entry in declaration order. -/
def effectiveNodeProperties (ctx : ExportContext) (obj : ObjData) : NodeProperties :=
  ctx.node_settings.foldl (fun p s => apply_settings_to_node s p) (nodePropertiesOf obj.ac_properties)

/-- The transform_matrix of a wrapping node in _write_mesh_node: Matrix()
identity, replaced by the converted inverse of the parent world matrix when
the object has a parent. -/
def wrapperTransform (ctx : ExportContext) (parent : Option Mat4) : Mat4 :=
  match parent with
  | some pw => ctx.convert_matrix (ctx.matrix_inverted pw)
  | none => matrixIdentity

/-- _write_mesh_node: split by material then by the vertex ceiling; when the
object has a parent or more than one group, a wrapping generic node is
emitted first (child count = number of groups, transform = converted
inverse of the parent world matrix when a parent exists, else the identity)
with the Mesh records as its children; otherwise the records are emitted in
place. -/
def write_mesh_node (ctx : ExportContext) (parent : Option Mat4) (obj : ObjData) :
    Except String (List Rec × List String) :=
  match split_object_by_materials ctx obj with
  | .error e => .error e
  | .ok dm =>
    let divided_meshes := split_meshes_for_vertex_limit dm
    let node_properties := effectiveNodeProperties ctx obj
    match write_meshes ctx obj node_properties divided_meshes with
    | .error e => .error e
    | .ok mw =>
      if parent.isSome || decide (1 < divided_meshes.length) then
        let transform_matrix : Mat4 := wrapperTransform ctx parent
        .ok ([Rec.node obj.name divided_meshes.length true transform_matrix mw.1], mw.2)
      else
        .ok (mw.1, mw.2)

/-- The num_children loops of _write_base_node: children that are not
excluded by the double-underscore marker and are visible. -/
def countExportable (objects : List BObj) : Nat :=
  (objects.filter (fun c => !(isExcludedName c.name) && c.visible)).length

/-- The warning text of _write_base_node for an unknown logical object.
os.linesep is the newline of the reference platform; the second sentence is
a plain (non-formatted) Python string, so its braces are emitted verbatim. -/
def unknown_object_warning (name : String) : String :=
  "Unknown logical object \x27" ++ name ++ "\x27 might prevent other objects from loading.\n" ++
    "\tRename it to \x27__\x7bobj.name\x7d\x27 if you do not want to export it."

mutual

/-- _any_child_is_mesh: some hierarchy descendant reached through the
children is of MESH or CURVE type. -/
def any_child_is_mesh : BObj → Bool
  | .mk _ cs => anyChildIsMeshList cs

/-- The child loop of _any_child_is_mesh. -/
def anyChildIsMeshList : List BObj → Bool
  | [] => false
  | c :: cs =>
    (c.data.otype == ObjType.MESH || c.data.otype == ObjType.CURVE ||
      any_child_is_mesh c) || anyChildIsMeshList cs

end

mutual

/-- _write_object: skip excluded or invisible objects entirely (children
included); reject a mesh object with hierarchy children before any of its
records are emitted; emit a mesh node or a generic base node (with the
unknown-object warning check of _write_base_node), the records of the
visible children becoming the children of the base node record. -/
def write_object (ctx : ExportContext) (parent : Option Mat4) :
    BObj → Except String (List Rec × List String)
  | .mk d cs =>
    if !(isExcludedName d.name) && d.visible then
      if d.otype = ObjType.MESH then
        if cs.isEmpty then
          write_mesh_node ctx parent d
        else
          .error ("A mesh cannot contain children (\x27" ++ d.name ++ "\x27)")
      else
        let warns :=
          if !(is_ac_object ctx d.name) && !(anyChildIsMeshList cs) then
            [unknown_object_warning d.name]
          else []
        match write_children ctx d.matrix_world cs with
        | .error e => .error e
        | .ok kids =>
          .ok ([Rec.node d.name (countExportable cs) true
              (ctx.convert_matrix d.matrix_local) kids.1],
            warns ++ kids.2)
    else .ok ([], [])

/-- The child loop at the end of _write_object: visit every visible child
with this object as parent. -/
def write_children (ctx : ExportContext) (world : Mat4) :
    List BObj → Except String (List Rec × List String)
  | [] => .ok ([], [])
  | c :: cs =>
    if c.visible then
      match write_object ctx (some world) c with
      | .error e => .error e
      | .ok r =>
        match write_children ctx world cs with
        | .error e => .error e
        | .ok rest => .ok (r.1 ++ rest.1, r.2 ++ rest.2)
    else write_children ctx world cs

end

/-- Stable insertion by ascending hierarchy child count, modelling the
Python sorted(..., key=lambda k: len(k.children)) call (Python sort is
stable). -/
def insertByChildCount (o : BObj) : List BObj → List BObj
  | [] => [o]
  | q :: r =>
    if o.children.length ≤ q.children.length then o :: q :: r
    else q :: insertByChildCount o r

/-- sorted(objects, key=lambda k: len(k.children)). -/
def sortByChildCount : List BObj → List BObj
  | [] => []
  | o :: os => insertByChildCount o (sortByChildCount os)

/-- The top-level loop of write(): visit every parentless visible object of
the sorted object list. Filtering the parentless objects out of the sorted
flat object list equals sorting the parentless objects (stable sort), so
the model sorts the top-level forest directly. -/
def write_tops (ctx : ExportContext) : List BObj → Except String (List Rec × List String)
  | [] => .ok ([], [])
  | o :: os =>
    if o.visible then
      match write_object ctx none o with
      | .error e => .error e
      | .ok r =>
        match write_tops ctx os with
        | .error e => .error e
        | .ok rest => .ok (r.1 ++ rest.1, r.2 ++ rest.2)
    else write_tops ctx os

/-- NodeWriter.write(): the synthetic "BlenderFile" root node (identity
transform, child count = number of parentless, non-excluded, visible
objects of blend_data.objects) followed by the top-level objects in
ascending child count order; the emitted top records are the children of
the root record. The argument is the parentless object forest. -/
def write (ctx : ExportContext) (objects : List BObj) : Except String (Rec × List String) :=
  match write_tops ctx (sortByChildCount objects) with
  | .error e => .error e
  | .ok tops =>
    .ok (Rec.node "BlenderFile" (countExportable objects) true matrixIdentity tops.1, tops.2)

/-- The split-then-limit pipeline a mesh object goes through in
_write_mesh_node before any record of it is framed. -/
def meshPipeline (ctx : ExportContext) (obj : ObjData) : Except String (List Mesh) :=
  (split_object_by_materials ctx obj).map split_meshes_for_vertex_limit

/-- Invariant of the vertex_index_mapping and vertices dicts: the stored
compact indices are 0, 1, 2, ... in insertion order. -/
def MappingInv {α : Type} (m : List (α × Nat)) : Prop :=
  m.map Prod.snd = List.range m.length

/-- foldl of min over a list starting from a seed value. -/
def foldlMin (x : ℚ) (xs : List ℚ) : ℚ := xs.foldl min x

/-- foldl of max over a list starting from a seed value. -/
def foldlMax (x : ℚ) (xs : List ℚ) : ℚ := xs.foldl max x

/-- The bounding sphere the specification words describe for a non-empty
vertex set: center = per-axis midpoint of the axis aligned minimum and
maximum, radius = the largest of the three axis extents. -/
def spec_bounding_sphere (v : UvVertex) (tl : List UvVertex) : V3 × ℚ :=
  let min_x := foldlMin v.co.1 (tl.map (fun w => w.co.1))
  let max_x := foldlMax v.co.1 (tl.map (fun w => w.co.1))
  let min_y := foldlMin v.co.2.1 (tl.map (fun w => w.co.2.1))
  let max_y := foldlMax v.co.2.1 (tl.map (fun w => w.co.2.1))
  let min_z := foldlMin v.co.2.2 (tl.map (fun w => w.co.2.2))
  let max_z := foldlMax v.co.2.2 (tl.map (fun w => w.co.2.2))
  (((min_x + max_x) / 2, (min_y + max_y) / 2, (min_z + max_z) / 2),
    max (max_x - min_x) (max (max_y - min_y) (max_z - min_z)))

/-- All three position coordinates lie strictly inside the sentinel interval
(-999999999, 999999999) of _write_bounding_sphere. -/
def coordsInSentinelRange (w : UvVertex) : Prop :=
  -999999999 < w.co.1 ∧ w.co.1 < 999999999 ∧
  -999999999 < w.co.2.1 ∧ w.co.2.1 < 999999999 ∧
  -999999999 < w.co.2.2 ∧ w.co.2.2 < 999999999

/-- A vertex outside the sentinel interval of the bounding sphere fold. -/
def vFar : UvVertex := ⟨(2000000000, 0, 0), (0, 0, 0), (0, 0), (0, 0, 0)⟩

/-- The 8 corners of the unit cube as UvVertex values. -/
def unitCubeVertices : List UvVertex :=
  [⟨(0,0,0), (0,0,0), (0,0), (0,0,0)⟩, ⟨(1,0,0), (0,0,0), (0,0), (0,0,0)⟩,
   ⟨(0,1,0), (0,0,0), (0,0), (0,0,0)⟩, ⟨(1,1,0), (0,0,0), (0,0), (0,0,0)⟩,
   ⟨(0,0,1), (0,0,0), (0,0), (0,0,0)⟩, ⟨(1,0,1), (0,0,0), (0,0), (0,0,0)⟩,
   ⟨(0,1,1), (0,0,0), (0,0), (0,0,0)⟩, ⟨(1,1,1), (0,0,0), (0,0), (0,0,0)⟩]

/-- A context whose external collaborators are identities, with no settings
entries, no known engine object names and an empty material resolver. -/
def ctx0 : ExportContext :=
  { ac_object_names := []
    node_settings := []
    material_positions := fun _ => none
    convert_matrix := id
    convert_vector3 := id
    matrix_inverted := id
    matrix_apply := fun _ v => v
    texture_slot := fun _ => none }

/-- Like ctx0 but the material resolver knows the name "mat" as id 7. -/
def ctxMat : ExportContext :=
  { ctx0 with material_positions := fun n => if n == "mat" then some 7 else none }

/-- Mesh data with no geometry at all (placeholder of non-mesh objects). -/
def emptyMeshData : MeshData :=
  { vertices := [], loops := [], loop_triangles := [], uv_layer := none, materials := [] }

/-- Mesh data with one material slot named "mat" but zero triangles (a mesh
object without faces). -/
def noFacesMeshData : MeshData :=
  { vertices := [], loops := [], loop_triangles := [], uv_layer := none,
    materials := [some "mat"] }

/-- Mesh data holding one triangle over material slot 0 ("mat") with an
active UV layer. -/
def triMeshData : MeshData :=
  { vertices := [(0,0,0), (1,0,0), (0,1,0)]
    loops := [⟨0, (0,0,1), (1,0,0)⟩, ⟨1, (0,0,1), (1,0,0)⟩, ⟨2, (0,0,1), (1,0,0)⟩]
    loop_triangles := [⟨0, [0,1,2]⟩]
    uv_layer := some [(0,0), (1,0), (0,1)]
    materials := [some "mat"] }

/-- Scalar object data with the given name, type and mesh data; visible,
identity transforms, unit dimensions, no ac_properties. -/
def mkObjData (name : String) (otype : ObjType) (md : MeshData) : ObjData :=
  { name := name, otype := otype, visible := true, matrix_local := matrixIdentity,
    matrix_world := matrixIdentity, dimensions := (1, 1, 1), ac_properties := none,
    mesh_data := md }

/-- A parentless visible mesh object with a material slot and no faces. -/
def objNoFaces : BObj := .mk (mkObjData "M" ObjType.MESH noFacesMeshData) []

/-- A parentless visible mesh object carrying one triangle. -/
def objTri : BObj := .mk (mkObjData "T" ObjType.MESH triMeshData) []

/-- A plain child object of generic type. -/
def objPlainChild : BObj := .mk (mkObjData "C" ObjType.OTHER emptyMeshData) []

/-- A visible mesh object that has one hierarchy child. -/
def objMeshWithChild : BObj := .mk (mkObjData "P" ObjType.MESH triMeshData) [objPlainChild]

/-- An excluded object (reserved double-underscore marker) with a child. -/
def objHelper : BObj := .mk (mkObjData "__helper" ObjType.OTHER emptyMeshData) [objPlainChild]

/-- A record tree is well framed when every record occurring in it declares
exactly the number of records subsequently emitted as its direct children. -/
def WellFramed (r : Rec) : Prop :=
  ∀ x, OccursIn x r → x.declaredChildCount = x.childRecords.length

/-- The deduplicated vertex buffer the one-triangle fixture produces (UV V
channel sign-flipped). -/
def triVerts : List UvVertex :=
  [⟨(0,0,0), (0,0,1), (0,-0), (1,0,0)⟩,
   ⟨(1,0,0), (0,0,1), (1,-0), (1,0,0)⟩,
   ⟨(0,1,0), (0,0,1), (0,-1), (1,0,0)⟩]

/-- The Mesh group of the one-triangle fixture with a given resolver result. -/
def triGroup (mid : Option Nat) : Mesh := ⟨mid, triVerts, [1, 2, 0]⟩

/-- The Mesh record written for the one-triangle fixture with a given
written material id. -/
def triRecord (matId : Nat) : MeshRecord :=
  { name := "T", castShadows := true, visibleFlag := true, transparent := false,
    vertices := triVerts, indices := [1, 2, 0], materialId := matId, layer := 0,
    lodIn := 0, lodOut := 1000, boundingSphere := write_bounding_sphere triVerts,
    renderable := true }

/-! ## General helper lemmas -/

theorem getD_append_of_lt {α : Type} (l l' : List α) (j : Nat) (hj : j < l.length) (d : α) :
    (l ++ l').getD j d = l.getD j d := by
  simp [List.getD_eq_getElem?_getD, List.getElem?_append_left hj]

theorem getD_map_of_lt {α β : Type} (l : List α) (f : α → β) (j : Nat) (hj : j < l.length)
    (d : β) (d₀ : α) : (l.map f).getD j d = f (l.getD j d₀) := by
  simp [List.getD_eq_getElem?_getD, List.getElem?_map, List.getElem?_eq_getElem hj,
    List.getD_eq_getElem?_getD]

theorem getD_append_length {α : Type} (l : List α) (x : α) (d : α) :
    (l ++ [x]).getD l.length d = x := by
  simp [List.getD_eq_getElem?_getD, List.getElem?_append_right (Nat.le_refl l.length)]

/-! ## Bounding sphere lemmas -/

theorem updMax_eq (a x : ℚ) : updMax a x = max a x := by
  unfold updMax
  rcases lt_or_le a x with h | h
  · rw [if_pos h, max_eq_right h.le]
  · rw [if_neg (not_lt.mpr h), max_eq_left h]

theorem updMin_eq (a x : ℚ) : updMin a x = min a x := by
  unfold updMin
  rcases lt_or_le x a with h | h
  · rw [if_pos h, min_eq_right h.le]
  · rw [if_neg (not_lt.mpr h), min_eq_left h]

theorem foldl_sphereStep_decomp (vs : List UvVertex) (a b c d e f : ℚ) :
    vs.foldl sphereStep (a, b, c, d, e, f) =
      ((vs.map (fun w => w.co.1)).foldl updMax a,
       (vs.map (fun w => w.co.2.1)).foldl updMax b,
       (vs.map (fun w => w.co.2.2)).foldl updMax c,
       (vs.map (fun w => w.co.1)).foldl updMin d,
       (vs.map (fun w => w.co.2.1)).foldl updMin e,
       (vs.map (fun w => w.co.2.2)).foldl updMin f) := by
  induction vs generalizing a b c d e f with
  | nil => rfl
  | cons v vs ih => simp only [List.foldl_cons, List.map_cons, sphereStep, ih]

theorem foldl_updMax_eq_max (xs : List ℚ) (a : ℚ) : xs.foldl updMax a = xs.foldl max a := by
  induction xs generalizing a with
  | nil => rfl
  | cons x xs ih => simp only [List.foldl_cons, updMax_eq, ih]

theorem foldl_updMin_eq_min (xs : List ℚ) (a : ℚ) : xs.foldl updMin a = xs.foldl min a := by
  induction xs generalizing a with
  | nil => rfl
  | cons x xs ih => simp only [List.foldl_cons, updMin_eq, ih]

theorem write_bounding_sphere_in_range (v : UvVertex) (tl : List UvVertex)
    (hb : ∀ w ∈ v :: tl, coordsInSentinelRange w) :
    write_bounding_sphere (v :: tl) = spec_bounding_sphere v tl := by
  obtain ⟨h1, h2, h3, h4, h5, h6⟩ := hb v (List.mem_cons_self v tl)
  have decomp := foldl_sphereStep_decomp (v :: tl)
    (-999999999) (-999999999) (-999999999) 999999999 999999999 999999999
  simp only [write_bounding_sphere, decomp, Prod.fst, Prod.snd, List.map_cons, List.foldl_cons,
    foldl_updMax_eq_max, foldl_updMin_eq_min, updMax_eq, updMin_eq]
  rw [max_eq_right h1.le, max_eq_right h3.le, max_eq_right h5.le,
    min_eq_right h2.le, min_eq_right h4.le, min_eq_right h6.le]
  simp only [spec_bounding_sphere, foldlMin, foldlMax, Prod.mk.injEq]
  have h2ne : (2 : ℚ) ≠ 0 := by norm_num
  refine ⟨⟨by ring, by ring, by ring⟩, ?_⟩
  rw [max_mul_of_nonneg _ _ (by norm_num : (0 : ℚ) ≤ 2),
    max_mul_of_nonneg _ _ (by norm_num : (0 : ℚ) ≤ 2),
    div_mul_cancel₀ _ h2ne, div_mul_cancel₀ _ h2ne, div_mul_cancel₀ _ h2ne]

/-- C5 counterexample: for the single vertex (2000000000, 0, 0), whose x
coordinate lies outside the sentinel interval, the code center is not the
axis midpoint (which would be 2000000000) and the code radius is not the
largest axis extent (which would be 0). -/
theorem C5_bounding_sphere_counterexample :
    write_bounding_sphere [vFar] = ((2999999999 / 2, 0, 0), 1000000001) ∧
    spec_bounding_sphere vFar [] = ((2000000000, 0, 0), 0) ∧
    write_bounding_sphere [vFar] ≠ spec_bounding_sphere vFar [] := by
  refine ⟨?_, ?_, ?_⟩
  · norm_num [write_bounding_sphere, vFar, sphereStep, updMax, updMin]
  · norm_num [spec_bounding_sphere, vFar, foldlMin, foldlMax]
  · norm_num [write_bounding_sphere, spec_bounding_sphere, vFar, sphereStep, updMax, updMin,
      foldlMin, foldlMax, Prod.ext_iff]

/-- C5 (amended): for every non-empty vertex set all of whose coordinates
lie strictly inside the sentinel interval (-999999999, 999999999), the
bounding volume calculator writes center = per-axis midpoint of the axis
aligned min and max and radius = the full largest-axis extent ((largest
extent / 2) * 2); and for the 8 corners of the unit cube it writes center
(0.5, 0.5, 0.5) and radius 1.0. -/
theorem C5_bounding_sphere_amended (v : UvVertex) (tl : List UvVertex)
    (hb : ∀ w ∈ v :: tl, coordsInSentinelRange w) :
    write_bounding_sphere (v :: tl) = spec_bounding_sphere v tl ∧
    write_bounding_sphere unitCubeVertices = ((1/2, 1/2, 1/2), 1) := by
  refine ⟨write_bounding_sphere_in_range v tl hb, ?_⟩
  norm_num [write_bounding_sphere, unitCubeVertices, sphereStep, updMax, updMin]

/-- Witness for C5_bounding_sphere_amended at the single origin vertex. -/
theorem C5_bounding_sphere_amended_witness :
    write_bounding_sphere [(default : UvVertex)] = spec_bounding_sphere default [] :=
  (C5_bounding_sphere_amended default []
    (by intro w hw; simp only [List.mem_singleton] at hw; subst hw
        norm_num [coordsInSentinelRange, default])).1

/-- C10: on an empty vertex set the bounding volume calculator does not
fail: the accumulators keep their sentinels, giving center (0,0,0) and the
negative radius -1999999998; on any non-empty vertex set whose coordinates
all lie strictly inside (-999999999, 999999999) the written bounds agree
with the true axis aligned midpoint/extent bounds. -/
theorem C10_empty_vertex_bounding_sphere :
    write_bounding_sphere [] = ((0, 0, 0), -1999999998) ∧
    ∀ (v : UvVertex) (tl : List UvVertex), (∀ w ∈ v :: tl, coordsInSentinelRange w) →
      write_bounding_sphere (v :: tl) = spec_bounding_sphere v tl := by
  refine ⟨?_, fun v tl hb => write_bounding_sphere_in_range v tl hb⟩
  norm_num [write_bounding_sphere]

/-- Witness for C10_empty_vertex_bounding_sphere at the single origin
vertex. -/
theorem C10_empty_vertex_bounding_sphere_witness :
    write_bounding_sphere [(default : UvVertex)] = spec_bounding_sphere default [] ∧
    write_bounding_sphere [] = ((0, 0, 0), -1999999998) :=
  ⟨C10_empty_vertex_bounding_sphere.2 default []
    (by intro w hw; simp only [List.mem_singleton] at hw; subst hw
        norm_num [coordsInSentinelRange, default]),
   C10_empty_vertex_bounding_sphere.1⟩

/-! ## Winding (C3) and vertex dedup (C4) -/

/-- C3: for a face whose deduplicated loop indices in input order are
(A, B, C), the grouping step appends the indices (B, C, A); for a four-loop
face (A, B, C, D) it appends (B, C, A) then (C, D, A). (emitFace is exactly
the index sequence process_triangle appends to the per-material index list
for one face with the given face_indices.) -/
theorem C3_winding_reorder (A B C D : Nat) :
    emitFace [A, B, C] = [B, C, A] ∧ emitFace [A, B, C, D] = [B, C, A, C, D, A] :=
  ⟨rfl, rfl⟩

/-- C4: vertex deduplication is idempotent. If a vertex with the same
position, normal and UV is already present in the vertices dict, inserting
a copy carrying any tangent returns the stored index and leaves the dict
(hence the stored tangent of the first insertion) unchanged; the source
equality and hash ignore the tangent. -/
theorem C4_vertex_dedup_idempotent (vs : List (UvVertex × Nat)) (v : UvVertex) (t' : V3)
    (i : Nat) (h : lookupUvVertex vs v = some i) :
    insertUvVertex vs { v with tangent := t' } = (vs, i) ∧
    uvVertexEq v { v with tangent := t' } = true ∧
    uvVertexHashKey { v with tangent := t' } = uvVertexHashKey v := by
  have hl : lookupUvVertex vs { v with tangent := t' } = some i := h
  refine ⟨?_, ?_, rfl⟩
  · simp [insertUvVertex, hl]
  · simp [uvVertexEq]

/-- Witness for C4_vertex_dedup_idempotent: a one-entry dict and a copy of
its key with a different tangent. -/
theorem C4_vertex_dedup_idempotent_witness :
    insertUvVertex [((default : UvVertex), 0)] { (default : UvVertex) with tangent := (1, 2, 3) }
      = ([((default : UvVertex), 0)], 0) :=
  (C4_vertex_dedup_idempotent [((default : UvVertex), 0)] default (1, 2, 3) 0
    (by simp [lookupUvVertex, uvVertexEq])).1

/-! ## Index-limit splitter lemmas (C1) -/

theorem vertexLimit_eq : vertexLimit = 65536 := rfl

theorem sortBySnd_eq_self {α : Type} :
    ∀ (l : List (α × Nat)) (k : Nat), l.map Prod.snd = List.range' k l.length → sortBySnd l = l := by
  intro l
  induction l with
  | nil => intro k _; rfl
  | cons p r ih =>
    intro k h
    simp only [List.map_cons, List.length_cons, List.range'_succ] at h
    have hp : p.2 = k := (List.cons.inj h).1
    have hr : r.map Prod.snd = List.range' (k + 1) r.length := (List.cons.inj h).2
    have hsr := ih (k + 1) hr
    simp only [sortBySnd, hsr]
    cases r with
    | nil => rfl
    | cons q r' =>
      have hq : q.2 = k + 1 := by
        simp only [List.map_cons, List.length_cons, List.range'_succ] at hr
        exact (List.cons.inj hr).1
      simp only [insertBySnd]
      rw [if_pos (by rw [hp, hq]; exact Nat.le_succ k)]

theorem mappingInv_sortBySnd {α : Type} (m : List (α × Nat)) (h : MappingInv m) :
    sortBySnd m = m :=
  sortBySnd_eq_self m 0 (by rw [h, List.range_eq_range'])

theorem mappingInv_entry (m : List (Nat × Nat)) (h : MappingInv m) {a b : Nat}
    (hm : (a, b) ∈ m) : b < m.length ∧ m.getD b (0, 0) = (a, b) := by
  obtain ⟨p, hp, hpe⟩ := List.mem_iff_getElem.mp hm
  have hp2 : p < (List.map Prod.snd m).length := by simpa using hp
  have h1 : (List.map Prod.snd m)[p]? = some b := by
    rw [List.getElem?_eq_getElem hp2, List.getElem_map]
    rw [hpe]
  have h2 : (List.map Prod.snd m)[p]? = some p := by
    rw [h]
    exact List.getElem?_range hp
  have hbp : b = p := by
    rw [h1] at h2
    exact Option.some.inj h2
  subst hbp
  exact ⟨hp, by simp [List.getD_eq_getElem?_getD, List.getElem?_eq_getElem hp, hpe]⟩

theorem insertIndex_spec (m : List (Nat × Nat)) (fi : Nat) (h : MappingInv m) :
    MappingInv (insertIndex m fi).1 ∧
    (∃ ext, (insertIndex m fi).1 = m ++ ext) ∧
    (insertIndex m fi).1.length ≤ m.length + 1 ∧
    m.length ≤ (insertIndex m fi).1.length ∧
    (insertIndex m fi).2 < (insertIndex m fi).1.length ∧
    ((insertIndex m fi).1.getD (insertIndex m fi).2 (0, 0)).1 = fi := by
  cases hfind : lookupNat m fi with
  | some j =>
    simp only [insertIndex, hfind]
    obtain ⟨p, hpfind, hpj⟩ : ∃ p, m.find? (fun p => p.1 == fi) = some p ∧ p.2 = j := by
      cases hf : m.find? (fun p => p.1 == fi) with
      | none => rw [lookupNat, hf] at hfind; simp at hfind
      | some p =>
        rw [lookupNat, hf] at hfind
        simp only [Option.map_some'] at hfind
        exact ⟨p, rfl, Option.some.inj hfind⟩
    have hmem := List.mem_of_find?_eq_some hpfind
    have hp1 : p.1 = fi := by simpa using List.find?_some hpfind
    have hpe : (fi, j) ∈ m := by
      have hpp : p = (fi, j) := by
        obtain ⟨p1, p2⟩ := p
        simp only at hp1 hpj
        rw [hp1, hpj]
      rwa [hpp] at hmem
    obtain ⟨hlt, hget⟩ := mappingInv_entry m h hpe
    exact ⟨h, ⟨[], by simp⟩, Nat.le_succ _, Nat.le_refl _, hlt, by rw [hget]⟩
  | none =>
    simp only [insertIndex, hfind]
    refine ⟨?_, ⟨[(fi, m.length)], rfl⟩, by simp, by simp, by simp, ?_⟩
    · unfold MappingInv at h ⊢
      simp [h, List.range_succ]
    · rw [getD_append_length]

theorem mapFace_count : ∀ (f : List Nat) (m : List (Nat × Nat)),
    (mapFace m f).2.length = f.length
  | [], _ => rfl
  | _ :: rest, m => by
    simp only [mapFace, List.length_cons]
    rw [mapFace_count rest]

theorem mapFace_spec : ∀ (f : List Nat) (m : List (Nat × Nat)), MappingInv m →
    MappingInv (mapFace m f).1 ∧
    (∃ ext, (mapFace m f).1 = m ++ ext) ∧
    (mapFace m f).1.length ≤ m.length + f.length ∧
    (∀ j ∈ (mapFace m f).2, j < (mapFace m f).1.length) ∧
    ((mapFace m f).2.map (fun j => ((mapFace m f).1.getD j (0, 0)).1) = f)
  | [], m, h => by
    refine ⟨h, ⟨[], by simp [mapFace]⟩, by simp [mapFace], by simp [mapFace], by simp [mapFace]⟩
  | fi :: rest, m, h => by
    obtain ⟨h1, ⟨ext1, hext1⟩, hlen1, _, hlt1, hfst1⟩ := insertIndex_spec m fi h
    obtain ⟨h2, ⟨ext2, hext2⟩, hlen2, hbound2, hdec2⟩ :=
      mapFace_spec rest (insertIndex m fi).1 h1
    simp only [mapFace]
    refine ⟨h2, ?_, ?_, ?_, ?_⟩
    · exact ⟨ext1 ++ ext2, by rw [hext2, hext1, List.append_assoc]⟩
    · simp only [List.length_cons]
      omega
    · intro j hj
      rcases List.mem_cons.mp hj with rfl | hj
      · have hle : (insertIndex m fi).1.length ≤ (mapFace (insertIndex m fi).1 rest).1.length := by
          rw [hext2]
          simp
        omega
      · exact hbound2 j hj
    · simp only [List.map_cons]
      congr 1
      rw [hext2, getD_append_of_lt _ _ _ hlt1, hfst1]

theorem closeGroup_material (V : List UvVertex) (mat : Option Nat) (m : List (Nat × Nat))
    (acc : List Nat) : (closeGroup V mat m acc).material_id = mat := rfl

theorem closeGroup_indices (V : List UvVertex) (mat : Option Nat) (m : List (Nat × Nat))
    (acc : List Nat) : (closeGroup V mat m acc).indices = acc := rfl

theorem closeGroup_vertices_length (V : List UvVertex) (mat : Option Nat)
    (m : List (Nat × Nat)) (acc : List Nat) (hInv : MappingInv m) :
    (closeGroup V mat m acc).vertices.length = m.length := by
  simp [closeGroup, mappingInv_sortBySnd m hInv]

theorem closeGroup_decode (V : List UvVertex) (mat : Option Nat) (m : List (Nat × Nat))
    (acc : List Nat) (hInv : MappingInv m) (hacc : ∀ j ∈ acc, j < m.length) :
    (closeGroup V mat m acc).indices.map
        (fun j => (closeGroup V mat m acc).vertices.getD j default)
      = acc.map (fun j => V.getD (m.getD j (0, 0)).1 default) := by
  simp only [closeGroup]
  rw [mappingInv_sortBySnd m hInv]
  apply List.map_congr_left
  intro j hj
  exact getD_map_of_lt m _ j (hacc j hj) default (0, 0)

theorem mappingInv_nil : MappingInv ([] : List (Nat × Nat)) := rfl

theorem splitOneGo_nil (V : List UvVertex) (mat : Option Nat) (m : List (Nat × Nat))
    (acc : List Nat) : splitOneGo V mat [] m acc = [closeGroup V mat m acc] := rfl

theorem splitOneGo_cons_eq (V : List UvVertex) (mat : Option Nat) (f : List Nat)
    (fs : List (List Nat)) (m : List (Nat × Nat)) (acc : List Nat) :
    splitOneGo V mat (f :: fs) m acc =
      if vertexLimit - 3 ≤ (mapFace m f).1.length then
        match fs with
        | [] => [closeGroup V mat (mapFace m f).1 (acc ++ (mapFace m f).2)]
        | _ => closeGroup V mat (mapFace m f).1 (acc ++ (mapFace m f).2) ::
            splitOneGo V mat fs [] []
      else splitOneGo V mat fs (mapFace m f).1 (acc ++ (mapFace m f).2) := rfl

theorem splitOneGo_one_pos (V : List UvVertex) (mat : Option Nat) (f : List Nat)
    (m : List (Nat × Nat)) (acc : List Nat)
    (hc : vertexLimit - 3 ≤ (mapFace m f).1.length) :
    splitOneGo V mat [f] m acc = [closeGroup V mat (mapFace m f).1 (acc ++ (mapFace m f).2)] := by
  rw [splitOneGo_cons_eq, if_pos hc]

theorem splitOneGo_cons_cons_pos (V : List UvVertex) (mat : Option Nat) (f f' : List Nat)
    (fs' : List (List Nat)) (m : List (Nat × Nat)) (acc : List Nat)
    (hc : vertexLimit - 3 ≤ (mapFace m f).1.length) :
    splitOneGo V mat (f :: f' :: fs') m acc =
      closeGroup V mat (mapFace m f).1 (acc ++ (mapFace m f).2) ::
        splitOneGo V mat (f' :: fs') [] [] := by
  rw [splitOneGo_cons_eq, if_pos hc]

theorem splitOneGo_cons_neg (V : List UvVertex) (mat : Option Nat) (f : List Nat)
    (fs : List (List Nat)) (m : List (Nat × Nat)) (acc : List Nat)
    (hc : ¬ (vertexLimit - 3 ≤ (mapFace m f).1.length)) :
    splitOneGo V mat (f :: fs) m acc =
      splitOneGo V mat fs (mapFace m f).1 (acc ++ (mapFace m f).2) := by
  rw [splitOneGo_cons_eq, if_neg hc]

theorem splitOneGo_material (V : List UvVertex) (mat : Option Nat) :
    ∀ (faces : List (List Nat)) (m : List (Nat × Nat)) (acc : List Nat),
      ∀ g ∈ splitOneGo V mat faces m acc, g.material_id = mat := by
  intro faces
  induction faces with
  | nil =>
    intro m acc g hg
    rw [splitOneGo_nil, List.mem_singleton] at hg
    rw [hg]
    exact closeGroup_material V mat m acc
  | cons f fs ih =>
    intro m acc g hg
    by_cases hc : vertexLimit - 3 ≤ (mapFace m f).1.length
    · cases fs with
      | nil =>
        rw [splitOneGo_one_pos V mat f m acc hc, List.mem_singleton] at hg
        rw [hg]
        exact closeGroup_material V mat _ _
      | cons f' fs' =>
        rw [splitOneGo_cons_cons_pos V mat f f' fs' m acc hc, List.mem_cons] at hg
        rcases hg with rfl | hg
        · exact closeGroup_material V mat _ _
        · exact ih _ _ g hg
    · rw [splitOneGo_cons_neg V mat f fs m acc hc] at hg
      exact ih _ _ g hg

theorem splitOneGo_mod3 (V : List UvVertex) (mat : Option Nat) :
    ∀ (faces : List (List Nat)) (m : List (Nat × Nat)) (acc : List Nat),
      (∀ f ∈ faces, f.length = 3) → acc.length % 3 = 0 →
      ∀ g ∈ splitOneGo V mat faces m acc, g.indices.length % 3 = 0 := by
  intro faces
  induction faces with
  | nil =>
    intro m acc _ hacc g hg
    rw [splitOneGo_nil, List.mem_singleton] at hg
    rw [hg, closeGroup_indices]
    exact hacc
  | cons f fs ih =>
    intro m acc hf hacc g hg
    have hf3 : f.length = 3 := hf f (List.mem_cons_self f fs)
    have hacc1 : (acc ++ (mapFace m f).2).length % 3 = 0 := by
      rw [List.length_append, mapFace_count, hf3]
      omega
    have hffs : ∀ f' ∈ fs, f'.length = 3 := fun f' hf' => hf f' (List.mem_cons_of_mem f hf')
    by_cases hc : vertexLimit - 3 ≤ (mapFace m f).1.length
    · cases fs with
      | nil =>
        rw [splitOneGo_one_pos V mat f m acc hc, List.mem_singleton] at hg
        rw [hg, closeGroup_indices]
        exact hacc1
      | cons f' fs' =>
        rw [splitOneGo_cons_cons_pos V mat f f' fs' m acc hc, List.mem_cons] at hg
        rcases hg with rfl | hg
        · rw [closeGroup_indices]
          exact hacc1
        · exact ih _ _ hffs (by simp) g hg
    · rw [splitOneGo_cons_neg V mat f fs m acc hc] at hg
      exact ih _ _ hffs hacc1 g hg

theorem splitOneGo_vertexBound (V : List UvVertex) (mat : Option Nat) :
    ∀ (faces : List (List Nat)) (m : List (Nat × Nat)) (acc : List Nat),
      MappingInv m → m.length < vertexLimit - 3 → (∀ f ∈ faces, f.length ≤ 3) →
      ∀ g ∈ splitOneGo V mat faces m acc, g.vertices.length ≤ 65535 := by
  intro faces
  induction faces with
  | nil =>
    intro m acc hInv hsmall _ g hg
    rw [splitOneGo_nil, List.mem_singleton] at hg
    rw [hg, closeGroup_vertices_length V mat m acc hInv]
    rw [vertexLimit_eq] at hsmall
    omega
  | cons f fs ih =>
    intro m acc hInv hsmall hf g hg
    obtain ⟨hInv1, ⟨ext1, _⟩, hlen1, _, _⟩ := mapFace_spec f m hInv
    have hf3 : f.length ≤ 3 := hf f (List.mem_cons_self f fs)
    have hm1 : (mapFace m f).1.length ≤ 65535 := by
      rw [vertexLimit_eq] at hsmall
      omega
    have hffs : ∀ f' ∈ fs, f'.length ≤ 3 := fun f' hf' => hf f' (List.mem_cons_of_mem f hf')
    by_cases hc : vertexLimit - 3 ≤ (mapFace m f).1.length
    · cases fs with
      | nil =>
        rw [splitOneGo_one_pos V mat f m acc hc, List.mem_singleton] at hg
        rw [hg, closeGroup_vertices_length V mat _ _ hInv1]
        exact hm1
      | cons f' fs' =>
        rw [splitOneGo_cons_cons_pos V mat f f' fs' m acc hc, List.mem_cons] at hg
        rcases hg with rfl | hg
        · rw [closeGroup_vertices_length V mat _ _ hInv1]
          exact hm1
        · exact ih _ _ mappingInv_nil (by decide) hffs g hg
    · rw [splitOneGo_cons_neg V mat f fs m acc hc] at hg
      exact ih _ _ hInv1 (by omega) hffs g hg

theorem splitOneGo_decode (V : List UvVertex) (mat : Option Nat) :
    ∀ (faces : List (List Nat)) (m : List (Nat × Nat)) (acc : List Nat),
      MappingInv m → (∀ j ∈ acc, j < m.length) →
      (splitOneGo V mat faces m acc).flatMap
          (fun g => g.indices.map (fun j => g.vertices.getD j default))
        = acc.map (fun j => V.getD (m.getD j (0, 0)).1 default)
          ++ faces.flatten.map (fun i => V.getD i default) := by
  intro faces
  induction faces with
  | nil =>
    intro m acc hInv hacc
    rw [splitOneGo_nil]
    simp only [List.flatMap_cons, List.flatMap_nil, List.append_nil, List.flatten_nil,
      List.map_nil]
    exact closeGroup_decode V mat m acc hInv hacc
  | cons f fs ih =>
    intro m acc hInv hacc
    obtain ⟨hInv1, ⟨ext1, hext1⟩, _, hbound1, hdec1⟩ := mapFace_spec f m hInv
    have hmle : m.length ≤ (mapFace m f).1.length := by
      rw [hext1]
      simp
    have hacc1 : ∀ j ∈ acc ++ (mapFace m f).2, j < (mapFace m f).1.length := by
      intro j hj
      rcases List.mem_append.mp hj with hj | hj
      · exact Nat.lt_of_lt_of_le (hacc j hj) hmle
      · exact hbound1 j hj
    have hdecacc1 :
        (acc ++ (mapFace m f).2).map (fun j => V.getD ((mapFace m f).1.getD j (0, 0)).1 default)
          = acc.map (fun j => V.getD (m.getD j (0, 0)).1 default)
            ++ f.map (fun i => V.getD i default) := by
      rw [List.map_append]
      congr 1
      · apply List.map_congr_left
        intro j hj
        rw [hext1, getD_append_of_lt _ _ _ (hacc j hj)]
      · have hcomp := congrArg (List.map (fun i => V.getD i default)) hdec1
        rw [List.map_map] at hcomp
        exact hcomp
    by_cases hc : vertexLimit - 3 ≤ (mapFace m f).1.length
    · cases fs with
      | nil =>
        rw [splitOneGo_one_pos V mat f m acc hc]
        simp only [List.flatMap_cons, List.flatMap_nil, List.append_nil, List.flatten_cons,
          List.flatten_nil]
        rw [closeGroup_decode V mat _ _ hInv1 hacc1, hdecacc1]
      | cons f' fs' =>
        rw [splitOneGo_cons_cons_pos V mat f f' fs' m acc hc]
        simp only [List.flatMap_cons]
        rw [closeGroup_decode V mat _ _ hInv1 hacc1, hdecacc1,
          ih [] [] mappingInv_nil (by simp)]
        simp only [List.map_nil, List.nil_append, List.flatten_cons, List.map_append,
          List.append_assoc]
    · rw [splitOneGo_cons_neg V mat f fs m acc hc]
      rw [ih _ _ hInv1 hacc1, hdecacc1]
      simp only [List.flatten_cons, List.map_append, List.append_assoc]

theorem splitOne_nil_eq (V : List UvVertex) (mat : Option Nat) :
    splitOne V mat [] = [] := rfl

theorem splitOne_cons_eq (V : List UvVertex) (mat : Option Nat) (c : List Nat)
    (cs : List (List Nat)) :
    splitOne V mat (c :: cs) = splitOneGo V mat (c :: cs) [] [] := rfl

theorem chunk3_flatten : ∀ l : List Nat, (chunk3 l).flatten = l
  | [] => rfl
  | [a] => rfl
  | [a, b] => rfl
  | a :: b :: c :: rest => by
    simp only [chunk3, List.flatten_cons, List.cons_append, List.nil_append]
    rw [chunk3_flatten rest]

theorem chunk3_le : ∀ l : List Nat, ∀ c ∈ chunk3 l, c.length ≤ 3
  | [] => by simp [chunk3]
  | [a] => by
    intro c hc
    simp only [chunk3, List.mem_singleton] at hc
    rw [hc]
    simp
  | [a, b] => by
    intro c hc
    simp only [chunk3, List.mem_singleton] at hc
    rw [hc]
    simp
  | a :: b :: c' :: rest => by
    intro c hc
    simp only [chunk3, List.mem_cons] at hc
    rcases hc with rfl | hc
    · simp
    · exact chunk3_le rest c hc

theorem chunk3_len3 : ∀ l : List Nat, l.length % 3 = 0 → ∀ c ∈ chunk3 l, c.length = 3
  | [] => by simp [chunk3]
  | [a] => by
    intro h
    simp at h
  | [a, b] => by
    intro h
    simp at h
  | a :: b :: c' :: rest => by
    intro h c hc
    have hrest : rest.length % 3 = 0 := by
      simp only [List.length_cons] at h
      omega
    simp only [chunk3, List.mem_cons] at hc
    rcases hc with rfl | hc
    · rfl
    · exact chunk3_len3 rest hrest c hc

theorem split_groups_of_align_bound (m : Mesh) (hAl : m.indices.length % 3 = 0) :
    ∀ g ∈ split_groups_of m, g.indices.length % 3 = 0 ∧ g.vertices.length ≤ 65536 := by
  intro g hg
  unfold split_groups_of at hg
  by_cases hbig : vertexLimit < m.vertices.length
  · rw [if_pos hbig] at hg
    cases hch : chunk3 m.indices with
    | nil =>
      rw [hch, splitOne_nil_eq] at hg
      simp at hg
    | cons c cs =>
      rw [hch, splitOne_cons_eq] at hg
      constructor
      · refine splitOneGo_mod3 m.vertices m.material_id (c :: cs) [] [] ?_ (by simp) g hg
        rw [← hch]
        exact chunk3_len3 m.indices hAl
      · have hb := splitOneGo_vertexBound m.vertices m.material_id (c :: cs) [] []
          mappingInv_nil (by decide) (by rw [← hch]; exact chunk3_le m.indices) g hg
        omega
  · rw [if_neg hbig] at hg
    simp only [List.mem_singleton] at hg
    subst hg
    rw [vertexLimit_eq] at hbig
    exact ⟨hAl, by omega⟩

theorem split_groups_of_material_decode (m : Mesh) :
    (∀ g ∈ split_groups_of m, g.material_id = m.material_id) ∧
    (split_groups_of m).flatMap (fun g => g.indices.map (fun j => g.vertices.getD j default))
      = m.indices.map (fun i => m.vertices.getD i default) := by
  unfold split_groups_of
  by_cases hbig : vertexLimit < m.vertices.length
  · rw [if_pos hbig]
    cases hch : chunk3 m.indices with
    | nil =>
      have hnil : m.indices = [] := by
        have hfl := chunk3_flatten m.indices
        rw [hch] at hfl
        simpa using hfl.symm
      rw [splitOne_nil_eq]
      refine ⟨by simp, ?_⟩
      rw [hnil]
      rfl
    | cons c cs =>
      rw [splitOne_cons_eq]
      refine ⟨fun g hg => splitOneGo_material m.vertices m.material_id (c :: cs) [] [] g hg, ?_⟩
      rw [splitOneGo_decode m.vertices m.material_id (c :: cs) [] [] mappingInv_nil (by simp)]
      rw [← hch, chunk3_flatten]
      rfl
  · rw [if_neg hbig]
    exact ⟨fun g hg => by simp only [List.mem_singleton] at hg; rw [hg], by
      simp [List.flatMap_cons]⟩

/-- C1: every mesh group produced by the index-limit splitter (from inputs
whose index lists are triangle aligned) has an index list length that is a
multiple of 3 and at most 65536 distinct vertices; and per input group, all
sub-groups carry the input material id and the concatenation of the
sub-group triangles (decoded through their local vertex buffers) equals the
input triangle sequence (decoded through the input vertex buffer), so the
three indices of any input triangle land together, in order, in exactly one
sub-group. -/
theorem C1_index_limit_split_invariants (ms : List Mesh)
    (hAlign : ∀ m ∈ ms, m.indices.length % 3 = 0) :
    (∀ g ∈ split_meshes_for_vertex_limit ms,
      g.indices.length % 3 = 0 ∧ g.vertices.length ≤ 65536) ∧
    (∀ m ∈ ms,
      (∀ g ∈ split_groups_of m, g.material_id = m.material_id) ∧
      (split_groups_of m).flatMap (fun g => g.indices.map (fun j => g.vertices.getD j default))
        = m.indices.map (fun i => m.vertices.getD i default)) := by
  constructor
  · intro g hg
    unfold split_meshes_for_vertex_limit at hg
    obtain ⟨m, hm, hgm⟩ := List.mem_flatMap.mp hg
    exact split_groups_of_align_bound m (hAlign m hm) g hgm
  · intro m _
    exact split_groups_of_material_decode m

/-- Witness for C1_index_limit_split_invariants: a singleton group list with
one aligned triangle. -/
theorem C1_index_limit_split_invariants_witness :
    (∀ g ∈ split_meshes_for_vertex_limit [Mesh.mk (some 5) [default] [0, 0, 0]],
      g.indices.length % 3 = 0 ∧ g.vertices.length ≤ 65536) ∧
    (∀ m ∈ [Mesh.mk (some 5) [default] [0, 0, 0]],
      (∀ g ∈ split_groups_of m, g.material_id = m.material_id) ∧
      (split_groups_of m).flatMap (fun g => g.indices.map (fun j => g.vertices.getD j default))
        = m.indices.map (fun i => m.vertices.getD i default)) :=
  C1_index_limit_split_invariants [Mesh.mk (some 5) [default] [0, 0, 0]]
    (by intro m hm; simp only [List.mem_singleton] at hm; subst hm; decide)

/-! ## Record tree lemmas -/

theorem occursIn_elim {x t : Rec} (h : OccursIn x t) :
    x = t ∨ ∃ c ∈ Rec.childRecords t, OccursIn x c := by
  cases h with
  | refl => exact Or.inl rfl
  | child hc ho => exact Or.inr ⟨_, hc, ho⟩

theorem wellFramed_meshRec (md : MeshRecord) : WellFramed (Rec.meshRec md 0 []) := by
  intro x hx
  rcases occursIn_elim hx with rfl | ⟨c, hc, _⟩
  · rfl
  · simp [Rec.childRecords] at hc

theorem wellFramed_node (name : String) (act : Bool) (tr : Mat4) (ks : List Rec)
    (hks : ∀ k ∈ ks, WellFramed k) : WellFramed (Rec.node name ks.length act tr ks) := by
  intro x hx
  rcases occursIn_elim hx with rfl | ⟨c, hc, ho⟩
  · rfl
  · exact hks c (by simpa [Rec.childRecords] using hc) x ho

theorem write_meshes_spec (ctx : ExportContext) (obj : ObjData) (props : NodeProperties) :
    ∀ (ms : List Mesh) (recs : List Rec) (ws : List String),
      write_meshes ctx obj props ms = .ok (recs, ws) →
      recs.length = ms.length ∧
      ∀ r ∈ recs, r.klass = 2 ∧ r.declaredChildCount = 0 ∧ r.childRecords = [] := by
  intro ms
  induction ms with
  | nil =>
    intro recs ws h
    simp only [write_meshes, Except.ok.injEq, Prod.mk.injEq] at h
    obtain ⟨h1, _⟩ := h
    rw [← h1]
    simp
  | cons m ms ih =>
    intro recs ws h
    cases hm : write_mesh ctx obj m props with
    | error e => simp [write_meshes, hm] at h
    | ok r =>
      cases hrest : write_meshes ctx obj props ms with
      | error e => simp [write_meshes, hm, hrest] at h
      | ok rest =>
        simp only [write_meshes, hm, hrest, Except.ok.injEq, Prod.mk.injEq] at h
        obtain ⟨h1, _⟩ := h
        obtain ⟨ihl, ihr⟩ := ih rest.1 rest.2 (by rw [hrest])
        have hr2 : r.1.klass = 2 ∧ r.1.declaredChildCount = 0 ∧ r.1.childRecords = [] := by
          unfold write_mesh at hm
          by_cases hv : vertexLimit < m.vertices.length
          · rw [if_pos hv] at hm
            exact absurd hm (by simp)
          · rw [if_neg hv] at hm
            simp only [Except.ok.injEq] at hm
            rw [← hm]
            exact ⟨rfl, rfl, rfl⟩
        rw [← h1]
        refine ⟨by simp [ihl], ?_⟩
        intro x hx
        rcases List.mem_cons.mp hx with rfl | hx
        · exact hr2
        · exact ihr x hx

theorem rec_klass2_shape (r : Rec) (h2 : r.klass = 2) (h0 : r.declaredChildCount = 0)
    (hk : r.childRecords = []) : ∃ md, r = Rec.meshRec md 0 [] := by
  cases r with
  | node _ _ _ _ _ => simp [Rec.klass] at h2
  | meshRec md cc ks =>
    simp only [Rec.declaredChildCount] at h0
    simp only [Rec.childRecords] at hk
    exact ⟨md, by rw [h0, hk]⟩

theorem write_mesh_node_spec (ctx : ExportContext) (pw : Option Mat4) (obj : ObjData)
    (gs : List Mesh) (recs : List Rec) (ws : List String)
    (hp : meshPipeline ctx obj = .ok gs)
    (h : write_mesh_node ctx pw obj = .ok (recs, ws)) :
    ∃ mrecs : List Rec, mrecs.length = gs.length ∧
      (∀ r ∈ mrecs, r.klass = 2 ∧ r.declaredChildCount = 0 ∧ r.childRecords = []) ∧
      ((pw.isSome = true ∨ 1 < gs.length) →
        recs = [Rec.node obj.name gs.length true (wrapperTransform ctx pw) mrecs]) ∧
      (pw = none → gs.length ≤ 1 → recs = mrecs) := by
  cases hs : split_object_by_materials ctx obj with
  | error e => simp [meshPipeline, Except.map, hs] at hp
  | ok dm =>
    have hgs : gs = split_meshes_for_vertex_limit dm := by
      simp only [meshPipeline, hs, Except.map, Except.ok.injEq] at hp
      exact hp.symm
    cases hmw : write_meshes ctx obj (effectiveNodeProperties ctx obj)
        (split_meshes_for_vertex_limit dm) with
    | error e => simp [write_mesh_node, hs, hmw] at h
    | ok mw =>
      obtain ⟨hlen, hshape⟩ :=
        write_meshes_spec ctx obj (effectiveNodeProperties ctx obj)
          (split_meshes_for_vertex_limit dm) mw.1 mw.2 (by rw [hmw])
      refine ⟨mw.1, by rw [hgs]; exact hlen, hshape, ?_, ?_⟩
      · intro hcond
        have hbool : (pw.isSome || decide (1 < (split_meshes_for_vertex_limit dm).length))
            = true := by
          rcases hcond with hc | hc
          · simp [hc]
          · rw [hgs] at hc
            simp [hc]
        simp only [write_mesh_node, hs, hmw, hbool, if_pos, Except.ok.injEq,
          Prod.mk.injEq] at h
        rw [← h.1, hgs]
      · intro hnone hle
        have hbool : (pw.isSome || decide (1 < (split_meshes_for_vertex_limit dm).length))
            = false := by
          rw [hnone]
          rw [hgs] at hle
          simp
          omega
        simp only [write_mesh_node, hs, hmw, hbool, Bool.false_eq_true, if_false,
          Except.ok.injEq, Prod.mk.injEq] at h
        rw [← h.1]

/-- C7: when a mesh object has a parent or its geometry splits into more
than one group, a wrapping generic node is written first (child count =
number of groups; transform = converted inverse of the parent world matrix
when a parent exists, else the identity) followed by one Mesh record per
group, each with written child count 0; with no parent and exactly one
group, the single Mesh record is written without a wrapper. -/
theorem C7_mesh_node_wrapping (ctx : ExportContext) (pw : Option Mat4) (obj : ObjData)
    (gs : List Mesh) (recs : List Rec) (ws : List String)
    (hp : meshPipeline ctx obj = .ok gs)
    (h : write_mesh_node ctx pw obj = .ok (recs, ws)) :
    ((pw.isSome = true ∨ 1 < gs.length) →
      ∃ children : List Rec,
        recs = [Rec.node obj.name gs.length true (wrapperTransform ctx pw) children] ∧
        children.length = gs.length ∧
        ∀ r ∈ children, r.klass = 2 ∧ r.declaredChildCount = 0) ∧
    (pw = none → gs.length = 1 → ∃ md, recs = [Rec.meshRec md 0 []]) := by
  obtain ⟨mrecs, hlen, hshape, hwrap, hflat⟩ :=
    write_mesh_node_spec ctx pw obj gs recs ws hp h
  constructor
  · intro hcond
    exact ⟨mrecs, hwrap hcond, hlen, fun r hr => ⟨(hshape r hr).1, (hshape r hr).2.1⟩⟩
  · intro hnone hone
    have hrecs : recs = mrecs := hflat hnone (by omega)
    rw [hone] at hlen
    obtain ⟨r, hr⟩ := List.length_eq_one.mp hlen
    obtain ⟨md, hmd⟩ := rec_klass2_shape r
      ((hshape r (by rw [hr]; exact List.mem_singleton_self r)).1)
      ((hshape r (by rw [hr]; exact List.mem_singleton_self r)).2.1)
      ((hshape r (by rw [hr]; exact List.mem_singleton_self r)).2.2)
    exact ⟨md, by rw [hrecs, hr, hmd]⟩

/-- Witness for C7_mesh_node_wrapping: the one-triangle fixture, no parent,
one group: the single Mesh record without a wrapper. -/
theorem C7_mesh_node_wrapping_witness :
    (((none : Option Mat4)).isSome = true ∨ 1 < [triGroup (some 7)].length →
      ∃ children : List Rec,
        [Rec.meshRec (triRecord 7) 0 []] = [Rec.node (mkObjData "T" ObjType.MESH triMeshData).name
            [triGroup (some 7)].length true (wrapperTransform ctxMat none) children] ∧
        children.length = [triGroup (some 7)].length ∧
        ∀ r ∈ children, r.klass = 2 ∧ r.declaredChildCount = 0) ∧
    ((none : Option Mat4) = none → [triGroup (some 7)].length = 1 →
      ∃ md, [Rec.meshRec (triRecord 7) 0 []] = [Rec.meshRec md 0 []]) :=
  C7_mesh_node_wrapping ctxMat none (mkObjData "T" ObjType.MESH triMeshData)
    [triGroup (some 7)] [Rec.meshRec (triRecord 7) 0 []] [] rfl rfl

/-- C6: a visible, non-excluded mesh-kind object with at least one
hierarchy child makes _write_object raise the structural error naming the
object before any record of its subtree is emitted (the .error return
carries no records), and the error propagates uncaught through write(),
aborting the export. -/
theorem C6_mesh_children_fatal (ctx : ExportContext) (pw : Option Mat4) (d : ObjData)
    (cs : List BObj) (hv : d.visible = true) (hx : isExcludedName d.name = false)
    (hm : d.otype = ObjType.MESH) (hcs : cs ≠ []) :
    write_object ctx pw (.mk d cs) =
      .error ("A mesh cannot contain children (\x27" ++ d.name ++ "\x27)") ∧
    (∃ pre post : String,
      "A mesh cannot contain children (\x27" ++ d.name ++ "\x27)" = pre ++ d.name ++ post) ∧
    write ctx [.mk d cs] =
      .error ("A mesh cannot contain children (\x27" ++ d.name ++ "\x27)") := by
  obtain ⟨c, cs', rfl⟩ := List.exists_cons_of_ne_nil hcs
  have h1 : write_object ctx pw (.mk d (c :: cs')) =
      .error ("A mesh cannot contain children (\x27" ++ d.name ++ "\x27)") := by
    simp [write_object, hv, hx, hm]
  refine ⟨h1, ⟨"A mesh cannot contain children (\x27", "\x27)", rfl⟩, ?_⟩
  have h2 : write_object ctx none (.mk d (c :: cs')) =
      .error ("A mesh cannot contain children (\x27" ++ d.name ++ "\x27)") := by
    simp [write_object, hv, hx, hm]
  simp [write, sortByChildCount, insertByChildCount, write_tops, BObj.visible, BObj.data,
    hv, h2]

/-- Witness for C6_mesh_children_fatal: the mesh object "P" with one child
at the top of a one-object scene. -/
theorem C6_mesh_children_fatal_witness :
    write_object ctx0 none objMeshWithChild
      = .error ("A mesh cannot contain children (\x27" ++ "P" ++ "\x27)") ∧
    (∃ pre post : String,
      "A mesh cannot contain children (\x27" ++ "P" ++ "\x27)" = pre ++ "P" ++ post) ∧
    write ctx0 [objMeshWithChild]
      = .error ("A mesh cannot contain children (\x27" ++ "P" ++ "\x27)") :=
  C6_mesh_children_fatal ctx0 none (mkObjData "P" ObjType.MESH triMeshData) [objPlainChild]
    rfl (by decide) rfl (List.cons_ne_nil _ _)

/-- C8: an object whose name starts with the double-underscore marker is
skipped whole by _write_object: zero records and zero warnings are written
for it (its descendants are never visited through it, whatever they
contain), and it is not counted by the exportable-children loops that
produce the declared child count of its parent and of the root. -/
theorem C8_excluded_objects_skipped (ctx : ExportContext) (pw : Option Mat4) (o : BObj)
    (hx : isExcludedName o.name = true) :
    write_object ctx pw o = .ok ([], []) ∧
    ∀ pre post : List BObj, countExportable (pre ++ o :: post) = countExportable (pre ++ post) := by
  constructor
  · cases o with
    | mk d cs =>
      have hx' : isExcludedName d.name = true := hx
      simp [write_object, hx']
  · intro pre post
    unfold countExportable
    rw [List.filter_append, List.filter_append, List.filter_cons]
    simp [hx]

/-- Witness for C8_excluded_objects_skipped: the object named __helper with
a child. -/
theorem C8_excluded_objects_skipped_witness :
    write_object ctx0 none objHelper = .ok ([], []) ∧
    countExportable ([] ++ objHelper :: []) = countExportable ([] ++ []) :=
  ⟨(C8_excluded_objects_skipped ctx0 none objHelper (by decide)).1,
   (C8_excluded_objects_skipped ctx0 none objHelper (by decide)).2 [] []⟩

theorem wellFramed_of_leaf (r : Rec) (h0 : r.declaredChildCount = 0)
    (hk : r.childRecords = []) : WellFramed r := by
  intro x hx
  rcases occursIn_elim hx with rfl | ⟨c, hc, _⟩
  · rw [h0, hk]
    rfl
  · rw [hk] at hc
    simp at hc

theorem wellFramed_node_of (name : String) (cnt : Nat) (act : Bool) (tr : Mat4)
    (ks : List Rec) (hcnt : cnt = ks.length) (hks : ∀ k ∈ ks, WellFramed k) :
    WellFramed (Rec.node name cnt act tr ks) := by
  intro x hx
  rcases occursIn_elim hx with rfl | ⟨c, hc, ho⟩
  · exact hcnt
  · exact hks c (by simpa [Rec.childRecords] using hc) x ho

theorem insertByChildCount_perm (o : BObj) :
    ∀ l : List BObj, (insertByChildCount o l).Perm (o :: l)
  | [] => .refl _
  | q :: r => by
    unfold insertByChildCount
    by_cases hc : o.children.length ≤ q.children.length
    · rw [if_pos hc]
    · rw [if_neg hc]
      exact ((insertByChildCount_perm o r).cons q).trans (List.Perm.swap o q r)

theorem sortByChildCount_perm : ∀ l : List BObj, (sortByChildCount l).Perm l
  | [] => .refl _
  | o :: os =>
    (insertByChildCount_perm o (sortByChildCount os)).trans ((sortByChildCount_perm os).cons o)

theorem countExportable_sort (l : List BObj) :
    countExportable (sortByChildCount l) = countExportable l :=
  ((sortByChildCount_perm l).filter _).length_eq

theorem countExportable_cons (c : BObj) (cs : List BObj) :
    countExportable (c :: cs)
      = (if (!(isExcludedName c.name) && c.visible) = true then 1 else 0)
        + countExportable cs := by
  unfold countExportable
  rw [List.filter_cons]
  by_cases h : (!(isExcludedName c.name) && c.visible) = true
  · rw [if_pos h, if_pos h]
    simp [Nat.add_comm]
  · rw [if_neg h, if_neg h]
    simp

theorem write_children_spec (ctx : ExportContext) (world : Mat4) :
    ∀ (cs : List BObj),
      (∀ c ∈ cs, ∀ recs ws, write_object ctx (some world) c = .ok (recs, ws) →
        (∀ r ∈ recs, WellFramed r) ∧
        (c.visible = false ∨ isExcludedName c.name = true → recs = []) ∧
        (c.visible = true → isExcludedName c.name = false → recs.length = 1)) →
      ∀ recs ws, write_children ctx world cs = .ok (recs, ws) →
        (∀ r ∈ recs, WellFramed r) ∧ recs.length = countExportable cs := by
  intro cs
  induction cs with
  | nil =>
    intro _ recs ws h
    simp only [write_children, Except.ok.injEq, Prod.mk.injEq] at h
    rw [← h.1]
    exact ⟨by simp, rfl⟩
  | cons c cs ih =>
    intro hpt recs ws h
    have hptc := hpt c (List.mem_cons_self c cs)
    have hptcs : ∀ c' ∈ cs, ∀ recs ws, write_object ctx (some world) c' = .ok (recs, ws) →
        (∀ r ∈ recs, WellFramed r) ∧
        (c'.visible = false ∨ isExcludedName c'.name = true → recs = []) ∧
        (c'.visible = true → isExcludedName c'.name = false → recs.length = 1) :=
      fun c' hc' => hpt c' (List.mem_cons_of_mem c hc')
    by_cases hv : c.visible = true
    · cases ho : write_object ctx (some world) c with
      | error e => simp [write_children, hv, ho] at h
      | ok r =>
        cases hrest : write_children ctx world cs with
        | error e => simp [write_children, hv, ho, hrest] at h
        | ok rest =>
          simp only [write_children, hv, if_true, ho, hrest, Except.ok.injEq,
            Prod.mk.injEq] at h
          obtain ⟨hwf1, hskip1, hone1⟩ := hptc r.1 r.2 (by rw [ho])
          obtain ⟨hwf2, hlen2⟩ := ih hptcs rest.1 rest.2 (by rw [hrest])
          rw [← h.1]
          refine ⟨?_, ?_⟩
          · intro x hx
            rcases List.mem_append.mp hx with hx | hx
            · exact hwf1 x hx
            · exact hwf2 x hx
          · rw [List.length_append, hlen2, countExportable_cons]
            by_cases hex : isExcludedName c.name = true
            · rw [hskip1 (Or.inr hex)]
              simp [hex]
            · have hx' : isExcludedName c.name = false := by
                cases hb : isExcludedName c.name
                · rfl
                · exact absurd hb hex
              rw [hone1 hv hx']
              simp [hx', hv]
    · have hv' : c.visible = false := by
        cases hb : c.visible
        · rfl
        · exact absurd hb hv
      have h' : write_children ctx world cs = .ok (recs, ws) := by
        simpa [write_children, hv'] using h
      obtain ⟨hwf2, hlen2⟩ := ih hptcs recs ws h'
      refine ⟨hwf2, ?_⟩
      rw [hlen2, countExportable_cons]
      simp [hv']

theorem write_object_spec (ctx : ExportContext) :
    ∀ (n : Nat) (o : BObj), sizeOf o ≤ n →
      ∀ (pw : Option Mat4) (recs : List Rec) (ws : List String),
        write_object ctx pw o = .ok (recs, ws) →
        (∀ r ∈ recs, WellFramed r) ∧
        (o.visible = false ∨ isExcludedName o.name = true → recs = []) ∧
        (o.visible = true → isExcludedName o.name = false →
          (o.data.otype ≠ ObjType.MESH → recs.length = 1) ∧
          (o.data.otype = ObjType.MESH →
            ∃ gs, meshPipeline ctx o.data = .ok gs ∧
              recs.length = if pw.isSome = true ∨ 1 < gs.length then 1 else gs.length)) := by
  intro n
  induction n using Nat.strong_induction_on with
  | _ n IH =>
    intro o hsize pw recs ws h
    obtain ⟨d, cs⟩ := o
    simp only [BObj.visible, BObj.name, BObj.data]
    by_cases hcond : (!(isExcludedName d.name) && d.visible) = true
    · obtain ⟨hx, hv⟩ : isExcludedName d.name = false ∧ d.visible = true := by
        cases hb1 : isExcludedName d.name <;> cases hb2 : d.visible <;>
          rw [hb1, hb2] at hcond <;> simp_all
      by_cases hm : d.otype = ObjType.MESH
      · cases cs with
        | nil =>
          have h' : write_mesh_node ctx pw d = .ok (recs, ws) := by
            simpa [write_object, hcond, hm] using h
          cases hs : split_object_by_materials ctx d with
          | error e => simp [write_mesh_node, hs] at h'
          | ok dm =>
            have hp : meshPipeline ctx d = .ok (split_meshes_for_vertex_limit dm) := by
              simp [meshPipeline, hs, Except.map]
            obtain ⟨mrecs, hlen, hshape, hwrap, hflat⟩ :=
              write_mesh_node_spec ctx pw d _ recs ws hp h'
            have hpw_of : ¬(pw.isSome = true ∨ 1 < (split_meshes_for_vertex_limit dm).length) →
                pw = none := by
              intro hc
              cases pw with
              | none => rfl
              | some w => exact absurd (Or.inl rfl) hc
            refine ⟨?_, ?_, ?_⟩
            · by_cases hcondw :
                  pw.isSome = true ∨ 1 < (split_meshes_for_vertex_limit dm).length
              · rw [hwrap hcondw]
                intro r hr
                simp only [List.mem_singleton] at hr
                subst hr
                refine wellFramed_node_of _ _ _ _ _ hlen.symm ?_
                intro k hk
                exact wellFramed_of_leaf k (hshape k hk).2.1 (hshape k hk).2.2
              · rw [hflat (hpw_of hcondw) (by omega)]
                intro r hr
                exact wellFramed_of_leaf r (hshape r hr).2.1 (hshape r hr).2.2
            · intro hcontra
              exfalso
              rcases hcontra with hc | hc
              · rw [hv] at hc
                exact Bool.noConfusion hc
              · rw [hx] at hc
                exact Bool.noConfusion hc
            · intro _ _
              refine ⟨fun hne => absurd hm hne, fun _ => ⟨_, hp, ?_⟩⟩
              by_cases hcondw :
                  pw.isSome = true ∨ 1 < (split_meshes_for_vertex_limit dm).length
              · rw [hwrap hcondw, if_pos hcondw]
                rfl
              · rw [hflat (hpw_of hcondw) (by omega), if_neg hcondw, hlen]
        | cons c cs' =>
          exfalso
          simp [write_object, hcond, hm] at h
      · have hwarns :
            write_object ctx pw (.mk d cs) =
              match write_children ctx d.matrix_world cs with
              | .error e => .error e
              | .ok kids =>
                .ok ([Rec.node d.name (countExportable cs) true
                    (ctx.convert_matrix d.matrix_local) kids.1],
                  (if !(is_ac_object ctx d.name) && !(anyChildIsMeshList cs) then
                    [unknown_object_warning d.name]
                  else []) ++ kids.2) := by
          simp [write_object, hcond, hm]
        rw [hwarns] at h
        cases hk : write_children ctx d.matrix_world cs with
        | error e => rw [hk] at h; exact absurd h (by simp)
        | ok kids =>
          rw [hk] at h
          simp only [Except.ok.injEq, Prod.mk.injEq] at h
          have hpt : ∀ c ∈ cs, ∀ recs' ws',
              write_object ctx (some d.matrix_world) c = .ok (recs', ws') →
              (∀ r ∈ recs', WellFramed r) ∧
              (c.visible = false ∨ isExcludedName c.name = true → recs' = []) ∧
              (c.visible = true → isExcludedName c.name = false → recs'.length = 1) := by
            intro c hc recs' ws' h'
            have hszcs : sizeOf cs ≤ sizeOf (BObj.mk d cs) := by
              simp [BObj.mk.sizeOf_spec]
            have hsc : sizeOf c < n :=
              Nat.lt_of_lt_of_le (Nat.lt_of_lt_of_le (List.sizeOf_lt_of_mem hc) hszcs) hsize
            obtain ⟨w1, w2, w3⟩ := IH (sizeOf c) hsc c (Nat.le_refl _)
              (some d.matrix_world) recs' ws' h'
            refine ⟨w1, w2, fun hv' hx' => ?_⟩
            by_cases hmc : c.data.otype = ObjType.MESH
            · obtain ⟨gs, _, hlenc⟩ := (w3 hv' hx').2 hmc
              rw [hlenc, if_pos (Or.inl (by simp))]
            · exact (w3 hv' hx').1 hmc
          obtain ⟨hwfk, hlenk⟩ :=
            write_children_spec ctx d.matrix_world cs hpt kids.1 kids.2 (by rw [hk])
          refine ⟨?_, ?_, ?_⟩
          · rw [← h.1]
            intro r hr
            simp only [List.mem_singleton] at hr
            subst hr
            exact wellFramed_node_of _ _ _ _ _ hlenk.symm hwfk
          · intro hcontra
            exfalso
            rcases hcontra with hc | hc
            · rw [hv] at hc
              exact Bool.noConfusion hc
            · rw [hx] at hc
              exact Bool.noConfusion hc
          · intro _ _
            refine ⟨fun _ => ?_, fun hmm => absurd hmm hm⟩
            rw [← h.1]
            rfl
    · have hfalse : (!(isExcludedName d.name) && d.visible) = false := by
        cases hb : (!(isExcludedName d.name) && d.visible)
        · rfl
        · exact absurd hb hcond
      have h' : (Except.ok (([] : List Rec), ([] : List String)) :
          Except String (List Rec × List String)) = .ok (recs, ws) := by
        simpa [write_object, hfalse] using h
      simp only [Except.ok.injEq, Prod.mk.injEq] at h'
      rw [← h'.1]
      refine ⟨by simp, fun _ => rfl, ?_⟩
      intro hv hx
      exfalso
      rw [hx, hv] at hfalse
      simp at hfalse

theorem write_tops_spec (ctx : ExportContext) :
    ∀ (os : List BObj),
      (∀ o ∈ os, ∀ recs ws, write_object ctx none o = .ok (recs, ws) →
        (∀ r ∈ recs, WellFramed r) ∧
        (o.visible = false ∨ isExcludedName o.name = true → recs = []) ∧
        (o.visible = true → isExcludedName o.name = false → recs.length = 1)) →
      ∀ recs ws, write_tops ctx os = .ok (recs, ws) →
        (∀ r ∈ recs, WellFramed r) ∧ recs.length = countExportable os := by
  intro os
  induction os with
  | nil =>
    intro _ recs ws h
    simp only [write_tops, Except.ok.injEq, Prod.mk.injEq] at h
    rw [← h.1]
    exact ⟨by simp, rfl⟩
  | cons o os ih =>
    intro hpt recs ws h
    have hpto := hpt o (List.mem_cons_self o os)
    have hptos : ∀ o' ∈ os, ∀ recs ws, write_object ctx none o' = .ok (recs, ws) →
        (∀ r ∈ recs, WellFramed r) ∧
        (o'.visible = false ∨ isExcludedName o'.name = true → recs = []) ∧
        (o'.visible = true → isExcludedName o'.name = false → recs.length = 1) :=
      fun o' ho' => hpt o' (List.mem_cons_of_mem o ho')
    by_cases hv : o.visible = true
    · cases ho : write_object ctx none o with
      | error e => simp [write_tops, hv, ho] at h
      | ok r =>
        cases hrest : write_tops ctx os with
        | error e => simp [write_tops, hv, ho, hrest] at h
        | ok rest =>
          simp only [write_tops, hv, if_true, ho, hrest, Except.ok.injEq,
            Prod.mk.injEq] at h
          obtain ⟨hwf1, hskip1, hone1⟩ := hpto r.1 r.2 (by rw [ho])
          obtain ⟨hwf2, hlen2⟩ := ih hptos rest.1 rest.2 (by rw [hrest])
          rw [← h.1]
          refine ⟨?_, ?_⟩
          · intro x hx
            rcases List.mem_append.mp hx with hx | hx
            · exact hwf1 x hx
            · exact hwf2 x hx
          · rw [List.length_append, hlen2, countExportable_cons]
            by_cases hex : isExcludedName o.name = true
            · rw [hskip1 (Or.inr hex)]
              simp [hex]
            · have hx' : isExcludedName o.name = false := by
                cases hb : isExcludedName o.name
                · rfl
                · exact absurd hb hex
              rw [hone1 hv hx']
              simp [hx', hv]
    · have hv' : o.visible = false := by
        cases hb : o.visible
        · rfl
        · exact absurd hb hv
      have h' : write_tops ctx os = .ok (recs, ws) := by
        simpa [write_tops, hv'] using h
      obtain ⟨hwf2, hlen2⟩ := ih hptos recs ws h'
      refine ⟨hwf2, ?_⟩
      rw [hlen2, countExportable_cons]
      simp [hv']

/-- C2 (amended): provided every parentless visible non-excluded mesh-kind
object whose pipeline succeeds yields at least one sub-mesh group, every
record of a successful export (the synthetic root, every generic base node,
every wrapping node and every Mesh record) declares exactly the number of
records subsequently emitted as its direct children. -/
theorem C2_child_count_amended (ctx : ExportContext) (objects : List BObj)
    (hne : ∀ o ∈ objects, o.data.otype = ObjType.MESH → o.visible = true →
      isExcludedName o.name = false →
      ∀ gs, meshPipeline ctx o.data = .ok gs → gs ≠ [])
    (root : Rec) (ws : List String) (h : write ctx objects = .ok (root, ws)) :
    ∀ r, OccursIn r root → r.declaredChildCount = r.childRecords.length := by
  cases ht : write_tops ctx (sortByChildCount objects) with
  | error e => simp [write, ht] at h
  | ok tops =>
    simp only [write, ht, Except.ok.injEq, Prod.mk.injEq] at h
    have hpt : ∀ o ∈ sortByChildCount objects, ∀ recs ws',
        write_object ctx none o = .ok (recs, ws') →
        (∀ r ∈ recs, WellFramed r) ∧
        (o.visible = false ∨ isExcludedName o.name = true → recs = []) ∧
        (o.visible = true → isExcludedName o.name = false → recs.length = 1) := by
      intro o ho recs' ws' h'
      have hmem : o ∈ objects := (sortByChildCount_perm objects).mem_iff.mp ho
      obtain ⟨w1, w2, w3⟩ :=
        write_object_spec ctx (sizeOf o) o (Nat.le_refl _) none recs' ws' h'
      refine ⟨w1, w2, fun hv hx => ?_⟩
      by_cases hmc : o.data.otype = ObjType.MESH
      · obtain ⟨gs, hgs, hlenc⟩ := (w3 hv hx).2 hmc
        have hgsne := hne o hmem hmc hv hx gs hgs
        rw [hlenc]
        by_cases h1 : 1 < gs.length
        · rw [if_pos (Or.inr h1)]
        · have hgs1 : gs.length = 1 := by
            have : gs.length ≠ 0 := fun h0 => hgsne (List.length_eq_zero.mp h0)
            omega
          rw [if_neg ?_, hgs1]
          intro hcd
          rcases hcd with hcd | hcd
          · simp at hcd
          · exact h1 hcd
      · exact (w3 hv hx).1 hmc
    obtain ⟨hwf, hlen⟩ :=
      write_tops_spec ctx (sortByChildCount objects) hpt tops.1 tops.2 (by rw [ht])
    rw [← h.1]
    refine wellFramed_node_of _ _ _ _ _ ?_ hwf
    rw [hlen, countExportable_sort]

/-- C2 counterexample: a parentless visible mesh object with a material
slot but no faces ("M"): the root node declares child count 1 but zero
child records follow it, because _write_mesh_node emits nothing for a
parentless object whose geometry yields zero groups. -/
theorem C2_child_count_counterexample :
    write ctx0 [objNoFaces] = .ok (Rec.node "BlenderFile" 1 true matrixIdentity [], []) ∧
    OccursIn (Rec.node "BlenderFile" 1 true matrixIdentity [])
      (Rec.node "BlenderFile" 1 true matrixIdentity []) ∧
    (Rec.node "BlenderFile" 1 true matrixIdentity []).declaredChildCount = 1 ∧
    (Rec.node "BlenderFile" 1 true matrixIdentity []).childRecords.length = 0 :=
  ⟨rfl, .refl _, rfl, rfl⟩

/-- Witness for C2_child_count_amended: the one-triangle scene, whose only
mesh object yields one group, checked at the root record itself. -/
theorem C2_child_count_amended_witness :
    (Rec.node "BlenderFile" 1 true matrixIdentity
        [Rec.meshRec (triRecord 0) 0 []]).declaredChildCount
      = (Rec.node "BlenderFile" 1 true matrixIdentity
        [Rec.meshRec (triRecord 0) 0 []]).childRecords.length :=
  C2_child_count_amended ctx0 [objTri]
    (by
      intro o ho
      simp only [List.mem_singleton] at ho
      subst ho
      intro _ _ _ gs hgs
      have hgs' : (Except.ok [triGroup none] : Except String (List Mesh)) = .ok gs := hgs
      simp only [Except.ok.injEq] at hgs'
      rw [← hgs']
      simp)
    (Rec.node "BlenderFile" 1 true matrixIdentity [Rec.meshRec (triRecord 0) 0 []])
    ["No material to mesh \x27T\x27 assigned"] rfl
    (Rec.node "BlenderFile" 1 true matrixIdentity [Rec.meshRec (triRecord 0) 0 []])
    (OccursIn.refl _)

/-- C9: an unresolved material does not fail the export. _write_mesh writes
a Mesh record with material id 0 and appends the warning naming the object
whenever the group carries the unresolved (None) material id; and an end to
end export whose resolver knows no names (so the used material "mat" is
absent) completes with the warning collected and the record holding id 0. -/
theorem C9_unresolved_material_fallback :
    (∀ (ctx : ExportContext) (obj : ObjData) (mesh : Mesh) (props : NodeProperties),
      mesh.material_id = none → mesh.vertices.length ≤ vertexLimit →
      ∃ md : MeshRecord,
        write_mesh ctx obj mesh props =
          .ok (Rec.meshRec md 0 [],
            ["No material to mesh \x27" ++ obj.name ++ "\x27 assigned"]) ∧
        md.materialId = 0) ∧
    write ctx0 [objTri] = .ok (Rec.node "BlenderFile" 1 true matrixIdentity
      [Rec.meshRec (triRecord 0) 0 []], ["No material to mesh \x27T\x27 assigned"]) ∧
    (triRecord 0).materialId = 0 := by
  refine ⟨?_, rfl, rfl⟩
  intro ctx obj mesh props hmid hlen
  refine ⟨⟨obj.name, props.castShadows, props.visible, props.transparent, mesh.vertices,
    mesh.indices, 0, props.layer, props.lodIn, props.lodOut,
    write_bounding_sphere mesh.vertices, props.renderable⟩, ?_, rfl⟩
  simp [write_mesh, hmid, not_lt.mpr hlen]

/-- Witness for C9_unresolved_material_fallback: the one-triangle group with
an unresolved material. -/
theorem C9_unresolved_material_fallback_witness :
    ∃ md : MeshRecord,
      write_mesh ctx0 (mkObjData "T" ObjType.MESH triMeshData) (triGroup none)
          defaultNodeProperties =
        .ok (Rec.meshRec md 0 [],
          ["No material to mesh \x27" ++ (mkObjData "T" ObjType.MESH triMeshData).name ++
            "\x27 assigned"]) ∧
      md.materialId = 0 :=
  C9_unresolved_material_fallback.1 ctx0 (mkObjData "T" ObjType.MESH triMeshData)
    (triGroup none) defaultNodeProperties rfl (by decide)
